import Mathlib

/-!
Shallow embedding of the `ibc-transfer-roundtrip` CosmWasm contract
(`contracts/ibc-transfer-roundtrip/contract.rs`) and the shared helpers
(`crates/common/common.rs`), together with proofs about the embedded
definitions.

Modelling conventions:
* Machine integers (`u32`, `u64`, `u128`) are `Nat`; Rust shift/or/rotate
  operations are embedded with explicit `% 2 ^ w` truncation wherever the
  Rust type would truncate.  Counter increments (`+= 1` on `u32`) are
  embedded as `Nat` successor: CosmWasm contracts are built with overflow
  checks, so an overflowing increment aborts rather than wraps, and no
  claim concerns states past `2 ^ 32` increments.
* The `hash!` macro (hex-encoded SHA-256 of the concatenation of its
  parts' bytes) is embedded as an injective function of the concatenated
  byte sequence, represented by the concatenation itself
  (`hashBytes = List.join`).  Every claim treats the hash purely as an
  opaque, collision-free correlation key, which this model captures.
* String bytes are modelled as the list of character code points, which
  is injective on strings.
* Typed storage accessors generated by the `item!` / `map!` macros are
  embedded as `Option`-valued fields of a `ContractState` structure, with
  maps as functions `key → Option value`.
* Fallible Rust code returns `Outcome`, which distinguishes `Ok`, typed
  `Err`, and a Rust panic (`expect` / `assert!` / `unreachable!`); the
  host reverts state on either `Err` or panic, which the trace semantics
  (`step`) reflects.
* External collaborator reads (minimum IBC fee, ICQ deposit params, the
  registered-query store backing `query_balance_icq`) are inputs of the
  entrypoints, packaged in `Ext`; wire-level (de)serialization of
  replies and of the IBC-hook memo is modelled structurally.
-/

/-! ## Bytes and the correlation codec (`crates/common/common.rs`) -/

/-- Big-endian byte encoding of `x` on `w` bytes (Rust `to_be_bytes`). -/
def beBytes : Nat → Nat → List Nat
  | 0, _ => []
  | w + 1, x => beBytes w (x / 256) ++ [x % 256]

/-- Bytes of a string, modelled as the list of character code points. -/
def strBytes (s : String) : List Nat :=
  s.toList.map Char.toNat

/-- The `hash!` macro: hex-encoded SHA-256 of the concatenation of the
parts' bytes, modelled as an injective function of the concatenation,
represented by the concatenation itself. -/
def hashBytes (parts : List (List Nat)) : List Nat :=
  parts.flatten

/-- `common::combine_u32s`: `(u64::from(a) << 32) | u64::from(b)`. -/
def combine_u32s (a b : Nat) : Nat :=
  (a <<< 32) ||| b

/-- `common::split_u64`: `a = x >> 32`, `b = x.rotate_left(32) >> 32`,
with `rotate_left` embedded as the `u64` rotation (explicit `% 2 ^ 64`). -/
def split_u64 (x : Nat) : Nat × Nat :=
  (x >>> 32, (((x <<< 32) % 2 ^ 64) ||| (x >>> 32)) >>> 32)

/-! ## Data model -/

/-- `cosmwasm_std::Coin` (amount is `Uint128`). -/
structure Coin where
  denom : String
  amount : Nat
  deriving DecidableEq, Repr

/-- `cosmwasm_std::MessageInfo`. -/
structure MessageInfo where
  sender : String
  funds : List Coin
  deriving DecidableEq, Repr

/-- `neutron_sdk::bindings::msg::IbcFee`. -/
structure IbcFee where
  recv_fee : List Coin
  ack_fee : List Coin
  timeout_fee : List Coin
  deriving DecidableEq, Repr

/-- `common::RemoteBalance`. -/
structure RemoteBalance where
  last_submitted_result_local_height : Nat
  balance : Option Coin
  deriving DecidableEq, Repr

/-- External view of one registered interchain query, backing
`get_registered_query` / `get_raw_interchain_query_result`: the last
submission height together with the single raw `RawCoin` storage entry
(protobuf decoding of well-formed entries is modelled structurally). -/
structure IcqView where
  last_submitted_result_local_height : Nat
  raw_denom : String
  raw_amount : String
  deriving DecidableEq, Repr

/-- The contract's `Error` enum (`contract.rs`); transparent wrappers keep
the wrapped message. -/
inductive Error where
  | cosmwasmStd (msg : String)
  | neutronSdk (msg : String)
  | parseReply (msg : String)
  | queryBalanceIcq (msg : String)
  | icaIndexOutOfBounds (ica_idx ica_set_size : Nat)
  | icqDepositMissing
  | incorrectIcqDepositAsset
  | insufficientIcqDeposit
  | insufficientIbcTxFee
  | noIcaSetup
  | noFundsToTransfer
  | noFundsToRetrieve
  | noFundsExpected
  | invalidRxHash
  deriving DecidableEq, Repr

/-- Result of running Rust code that may return `Ok`, return a typed
`Err`, or abort with a panic (`expect` / `assert!` / `unreachable!`). -/
inductive Outcome (α : Type) where
  | ok (a : α)
  | err (e : Error)
  | panic (msg : String)
  deriving Repr, DecidableEq

def Outcome.bind {α β : Type} : Outcome α → (α → Outcome β) → Outcome β
  | .ok a, f => f a
  | .err e, _ => .err e
  | .panic m, _ => .panic m

instance : Monad Outcome where
  pure := Outcome.ok
  bind := Outcome.bind

/-- `Option::ok_or`: missing value becomes a typed error. -/
def ofOption {α : Type} (o : Option α) (e : Error) : Outcome α :=
  match o with
  | some a => .ok a
  | none => .err e

/-- `Option::expect`: missing value aborts with a panic. -/
def expectSome {α : Type} (o : Option α) (msg : String) : Outcome α :=
  match o with
  | some a => .ok a
  | none => .panic msg

@[simp] theorem Outcome.bind_ok {α β : Type} (a : α) (f : α → Outcome β) :
    Outcome.bind (.ok a) f = f a := rfl

@[simp] theorem Outcome.bind_err {α β : Type} (e : Error) (f : α → Outcome β) :
    Outcome.bind (.err e) f = .err e := rfl

@[simp] theorem Outcome.bind_panic {α β : Type} (m : String) (f : α → Outcome β) :
    Outcome.bind (.panic m) f = .panic m := rfl

@[simp] theorem bind_eq_bind {α β : Type} (x : Outcome α) (f : α → Outcome β) :
    x >>= f = Outcome.bind x f := rfl

@[simp] theorem pure_eq_ok {α : Type} (a : α) : (pure a : Outcome α) = .ok a := rfl

@[simp] theorem ofOption_some {α : Type} (a : α) (e : Error) :
    ofOption (some a) e = .ok a := rfl

@[simp] theorem ofOption_none {α : Type} (e : Error) :
    ofOption (none : Option α) e = .err e := rfl

@[simp] theorem expectSome_some {α : Type} (a : α) (m : String) :
    expectSome (some a) m = .ok a := rfl

@[simp] theorem expectSome_none {α : Type} (m : String) :
    expectSome (none : Option α) m = .panic m := rfl

/-! ## Contract constants and storage (`contract.rs`) -/

def DEFAULT_TIMEOUT_SECONDS : Nat := 60 * 60 * 24 * 7 * 2

def DEFAULT_TIMEOUT_HEIGHT : Nat := 10000000

def REGISTER_ICQ_REPLY_KIND : Nat := 0

def TRANSFER_TX_REPLY_KIND : Nat := 1

def RETRIEVE_TX_REPLY_KIND : Nat := 2

def IBC_FEE_DENOM : String := "untrn"

/-- Key of the `tx_hash → ica_idx` settlement ledger:
`hash!(tx_seq_num.to_be_bytes(), source_channel)`. -/
def txHashOf (tx_seq_num : Nat) (source_channel : String) : List Nat :=
  hashBytes [beBytes 8 tx_seq_num, strBytes source_channel]

/-- Key of the `rx_hash → ica_idx` retrieval-capability ledger:
`hash!(ica_addr, amount.to_be_bytes(), tx_idx.to_be_bytes())`
(`u128` amount, `u32` transaction index). -/
def rxHashOf (ica_addr : String) (amount : Nat) (tx_idx : Nat) : List Nat :=
  hashBytes [strBytes ica_addr, beBytes 16 amount, beBytes 4 tx_idx]

/-- The contract's persistent storage: the typed items and maps declared
by the `state` module of `contract.rs`, with maps as `key → Option value`
functions over an initially-empty store. -/
structure ContractState where
  connection_id : String
  ibc_transfer_channel : String
  remote_denom : String
  icq_update_period : Nat
  host_ibc_denom : String
  ica_count : Option Nat
  owner_ica_idx : String → Option Nat
  tx_hash_ica_idx : List Nat → Option Nat
  rx_hash_ica_idx : List Nat → Option Nat
  ica_owner : Nat → Option String
  ica_addr : Nat → Option String
  ica_icq_id : Nat → Option Nat
  ica_tx_issued_count : Nat → Option Nat
  ica_tx_success_count : Nat → Option Nat
  ica_tx_error_count : Nat → Option Nat
  ica_tx_timeout_count : Nat → Option Nat
  ica_round_trip_count : Nat → Option Nat
  ica_tx_kind_seq_num : Nat → Option Nat
  ica_err_idx_msg : Nat → Option String
  icq_ica_idx : Nat → Option Nat

/-- Point update of a storage map (`storage.set` under a map key). -/
def updMap {κ ν : Type} [DecidableEq κ] (f : κ → Option ν) (k : κ) (v : ν) :
    κ → Option ν :=
  fun k2 => if k2 = k then some v else f k2

/-- `InstantiateMsg` (`msgs.rs`). -/
structure InstantiateMsg where
  connection_id : String
  ibc_transfer_channel : String
  icq_update_period : Nat
  remote_denom : String
  host_ibc_denom : String

/-- The `instantiate` entrypoint: saves the configuration into an
otherwise empty store. -/
def instantiate (msg : InstantiateMsg) : ContractState where
  connection_id := msg.connection_id
  ibc_transfer_channel := msg.ibc_transfer_channel
  remote_denom := msg.remote_denom
  icq_update_period := msg.icq_update_period
  host_ibc_denom := msg.host_ibc_denom
  ica_count := none
  owner_ica_idx := fun _ => none
  tx_hash_ica_idx := fun _ => none
  rx_hash_ica_idx := fun _ => none
  ica_owner := fun _ => none
  ica_addr := fun _ => none
  ica_icq_id := fun _ => none
  ica_tx_issued_count := fun _ => none
  ica_tx_success_count := fun _ => none
  ica_tx_error_count := fun _ => none
  ica_tx_timeout_count := fun _ => none
  ica_round_trip_count := fun _ => none
  ica_tx_kind_seq_num := fun _ => none
  ica_err_idx_msg := fun _ => none
  icq_ica_idx := fun _ => none

/-! ## Messages emitted by the contract -/

/-- The IBC transfer with IBC-hook memo built by
`make_ibc_transfer_with_hook_msg`; the protobuf `MsgTransfer` and the
JSON hook memo (`wasm.contract` / `wasm.msg = FundsRetrievedHook`) are
modelled structurally. -/
structure HookTransfer where
  source_channel : String
  token : Coin
  sender : String
  timeout_timestamp : Nat
  recipient : String
  hook_contract : String
  hook_rx_hash : List Nat
  deriving DecidableEq, Repr

def make_ibc_transfer_with_hook_msg (source_channel : String) (token : Coin)
    (sender : String) (timeout_timestamp : Nat) (recipient : String)
    (rx_hash : List Nat) : HookTransfer :=
  { source_channel := source_channel
    token := token
    sender := sender
    timeout_timestamp := timeout_timestamp
    recipient := recipient
    hook_contract := recipient
    hook_rx_hash := rx_hash }

/-- Messages the contract dispatches (`NeutronMsg` variants and
`BankMsg::Send`), with the fields the claims depend on. -/
inductive Msg where
  | registerInterchainAccount (connection_id interchain_account_id : String)
  | ibcTransfer (source_channel sender receiver : String) (token : Coin) (fee : IbcFee)
  | registerBalanceQuery (connection_id addr denom : String) (update_period : Nat)
  | submitTx (connection_id interchain_account_id : String) (payload : HookTransfer)
      (timeout : Nat) (fee : IbcFee)
  | bankSend (to_address : String) (amount : List Coin)
  deriving DecidableEq, Repr

/-- A dispatched submessage: `reply_id = some id` is
`SubMsg::reply_on_success(msg, id)`, `none` is a plain `add_message`. -/
structure SubMsg where
  msg : Msg
  reply_id : Option Nat
  deriving DecidableEq, Repr

/-! ## External collaborator views -/

/-- `str::parse::<Uint128>()` on a decimal string. -/
def parseNat (s : String) : Option Nat :=
  if s.toList ≠ [] ∧ s.toList.all Char.isDigit then
    let n := s.toList.foldl (fun acc c => acc * 10 + (c.toNat - 48)) 0
    if n < 2 ^ 128 then some n else none
  else
    none

/-- External reads performed by the entrypoints: `query_min_ibc_fee`,
the ICQ deposit params (`icq_deposit_fee`), and the registered-query
store behind `query_balance_icq`. -/
structure ExtDeps where
  min_ibc_fee : IbcFee
  icq_deposit_fee : Coin
  icq : Nat → Option IcqView

/-- The fields of `cosmwasm_std::Env` the contract uses; the block time
is carried in nanoseconds so that
`env.block.time.plus_seconds(k).nanos()` is `block_time_nanos + k * 1e9`. -/
structure EnvView where
  contract_address : String
  block_time_nanos : Nat
  deriving DecidableEq, Repr

/-- `common::query_balance_icq`: `None` when the registered query has
never submitted a result (height 0); a present result with no coin when
the raw denom and amount are both empty; otherwise the parsed coin.  A
missing registered query surfaces as the wrapped query error.  The
single-entry `assert_eq!` on `kv_results` is captured by `IcqView`
holding exactly one raw entry. -/
def query_balance_icq (icq : Nat → Option IcqView) (query_id : Nat) :
    Outcome (Option RemoteBalance) :=
  match icq query_id with
  | none => .err (.queryBalanceIcq "registered query not found")
  | some v =>
      if v.last_submitted_result_local_height = 0 then
        .ok none
      else if v.raw_denom = "" ∧ v.raw_amount = "" then
        .ok (some { last_submitted_result_local_height := v.last_submitted_result_local_height,
                    balance := none })
      else
        match parseNat v.raw_amount with
        | none => .err (.queryBalanceIcq "invalid coin amount")
        | some amt =>
            .ok (some { last_submitted_result_local_height := v.last_submitted_result_local_height,
                        balance := some { denom := v.raw_denom, amount := amt } })

/-! ## Execute entrypoints -/

/-- `is_ibc_fee_covered`: the attached `untrn` amount (first matching
coin) must meet the summed `untrn` timeout+ack fee; asserts that the fee
quote has exactly one ack and one timeout asset. -/
def is_ibc_fee_covered (info : MessageInfo) (ibc_fee : IbcFee) : Outcome Bool :=
  if ibc_fee.ack_fee.length ≠ 1 then
    .panic "only a single ibc ack fee asset"
  else if ibc_fee.timeout_fee.length ≠ 1 then
    .panic "only a single ibc timeout fee asset"
  else
    match info.funds.findSome?
        (fun c => if c.denom = IBC_FEE_DENOM then some c.amount else none) with
    | none => .ok false
    | some attached_fee_coin_amount =>
        let total_fee_amount :=
          ((ibc_fee.timeout_fee ++ ibc_fee.ack_fee).filterMap
            (fun c => if c.denom = IBC_FEE_DENOM then some c.amount else none)).sum
        .ok (decide (attached_fee_coin_amount ≥ total_fee_amount))

/-- `execute_setup_ica`: checks the attached ICQ deposit, allocates the
next ICA index, records owner ↔ index, and emits the
`RegisterInterchainAccount` message. -/
def execute_setup_ica (ext : ExtDeps) (s : ContractState) (info : MessageInfo) :
    Outcome (ContractState × List SubMsg) := do
  let owner := info.sender
  let icq_deposit_fee := ext.icq_deposit_fee
  let deposit ← ofOption info.funds.head? .icqDepositMissing
  if deposit.denom ≠ icq_deposit_fee.denom then
    .err .incorrectIcqDepositAsset
  else if deposit.amount < icq_deposit_fee.amount then
    .err .insufficientIcqDeposit
  else
    let next_ica_idx := s.ica_count.getD 0
    let s1 := { s with
      ica_count := some (next_ica_idx + 1)
      owner_ica_idx := updMap s.owner_ica_idx owner next_ica_idx
      ica_owner := updMap s.ica_owner next_ica_idx owner }
    let registration_msg := Msg.registerInterchainAccount s1.connection_id (toString next_ica_idx)
    pure (s1, [{ msg := registration_msg, reply_id := none }])

/-- `execute_transfer_funds`: fee proof, then finds the transfer coin by
the configured host IBC denom, resolves the sender's ICA, and emits the
`IbcTransfer` tagged `combine_u32s(TRANSFER_TX_REPLY_KIND, ica_idx)`. -/
def execute_transfer_funds (ext : ExtDeps) (env : EnvView) (s : ContractState)
    (info : MessageInfo) : Outcome (ContractState × List SubMsg) := do
  let min_ibc_fee := ext.min_ibc_fee
  let covered ← is_ibc_fee_covered info min_ibc_fee
  if !covered then
    .err .insufficientIbcTxFee
  else
    let tx_denom := s.host_ibc_denom
    let tx_coin ← ofOption (info.funds.find? (fun c => c.denom == tx_denom)) .noFundsToTransfer
    let owner := info.sender
    let ica_idx ← ofOption (s.owner_ica_idx owner) .noIcaSetup
    let ica_addr ← ofOption (s.ica_addr ica_idx) .noIcaSetup
    let source_channel := s.ibc_transfer_channel
    let ibc_transfer_msg :=
      Msg.ibcTransfer source_channel env.contract_address ica_addr tx_coin min_ibc_fee
    pure (s, [{ msg := ibc_transfer_msg,
                reply_id := some (combine_u32s TRANSFER_TX_REPLY_KIND ica_idx) }])

/-- `execute_retrieve_funds`: fee proof, requires a present non-zero
observed remote balance, derives the capability token
`hash!(ica_addr, amount.to_be_bytes(), tx_idx.to_be_bytes())` from the
current issued count, stores it in the `rx_hash` ledger, and emits the
`SubmitTx` whose payload embeds the token in the hook callback. -/
def execute_retrieve_funds (ext : ExtDeps) (env : EnvView) (s : ContractState)
    (info : MessageInfo) : Outcome (ContractState × List SubMsg) := do
  let min_ibc_fee := ext.min_ibc_fee
  let covered ← is_ibc_fee_covered info min_ibc_fee
  if !covered then
    .err .insufficientIbcTxFee
  else
    let owner := info.sender
    let ica_idx ← ofOption (s.owner_ica_idx owner) .noIcaSetup
    let ica_balance_icq ← ofOption (s.ica_icq_id ica_idx) .noIcaSetup
    let res ← query_balance_icq ext.icq ica_balance_icq
    let non_zero_remote_balance ←
      ofOption ((res.bind RemoteBalance.balance).filter (fun c => c.amount != 0))
        .noFundsToRetrieve
    let ica_addr ← ofOption (s.ica_addr ica_idx) .noIcaSetup
    let connection_id := s.connection_id
    let source_channel := s.ibc_transfer_channel
    let timeout_timestamp := env.block_time_nanos + DEFAULT_TIMEOUT_SECONDS * 1000000000
    let tx_idx := (s.ica_tx_issued_count ica_idx).getD 0
    let rx_hash := rxHashOf ica_addr non_zero_remote_balance.amount tx_idx
    let s1 := { s with rx_hash_ica_idx := updMap s.rx_hash_ica_idx rx_hash ica_idx }
    let ibc_transfer_msg := make_ibc_transfer_with_hook_msg source_channel
      non_zero_remote_balance ica_addr timeout_timestamp env.contract_address rx_hash
    let ica_submit_tx_msg :=
      Msg.submitTx connection_id (toString ica_idx) ibc_transfer_msg DEFAULT_TIMEOUT_SECONDS
        min_ibc_fee
    pure (s1, [{ msg := ica_submit_tx_msg,
                 reply_id := some (combine_u32s RETRIEVE_TX_REPLY_KIND ica_idx) }])

/-- `execute_funds_retrieved_hook`: looks the claimed token up in the
`rx_hash` ledger (`InvalidRxHash` if absent), increments the account's
round-trip counter, and forwards exactly the attached funds to the
account's owner. -/
def execute_funds_retrieved_hook (s : ContractState) (info : MessageInfo)
    (rx_hash : List Nat) : Outcome (ContractState × List SubMsg) := do
  let ica_idx ← ofOption (s.rx_hash_ica_idx rx_hash) .invalidRxHash
  let current_round_trip_count := (s.ica_round_trip_count ica_idx).getD 0
  let s1 := { s with
    ica_round_trip_count := updMap s.ica_round_trip_count ica_idx (current_round_trip_count + 1) }
  let ica_owner ← expectSome (s1.ica_owner ica_idx) "ica must have an owner"
  pure (s1, [{ msg := Msg.bankSend ica_owner info.funds, reply_id := none }])

/-- `ExecuteMsg` (`msgs.rs`). -/
inductive ExecuteMsg where
  | setupIca
  | transferFunds
  | retrieveFunds
  | fundsRetrievedHook (rx_hash : List Nat)
  deriving DecidableEq, Repr

/-- The `execute` entrypoint dispatcher. -/
def execute (ext : ExtDeps) (env : EnvView) (s : ContractState) (info : MessageInfo) :
    ExecuteMsg → Outcome (ContractState × List SubMsg)
  | .setupIca => execute_setup_ica ext s info
  | .transferFunds => execute_transfer_funds ext env s info
  | .retrieveFunds => execute_retrieve_funds ext env s info
  | .fundsRetrievedHook rx_hash => execute_funds_retrieved_hook s info rx_hash

/-! ## Sudo entrypoints -/

/-- `neutron_sdk::sudo::msg::RequestPacket`, restricted to the fields
the handlers read. -/
structure RequestPacket where
  sequence : Option Nat
  source_channel : Option String
  deriving DecidableEq, Repr

/-- `sudo_open_ack`: records the ICA address parsed from the
counterparty version and emits the balance-ICQ registration tagged
`combine_u32s(REGISTER_ICQ_REPLY_KIND, ica_idx)`.  The port-id and JSON
version parsing (which `expect`-panics on malformed runtime data) is
modelled structurally by passing the parsed index and address. -/
def sudo_open_ack (s : ContractState) (ica_idx : Nat) (ica_addr : String) :
    Outcome (ContractState × List SubMsg) :=
  let s1 := { s with ica_addr := updMap s.ica_addr ica_idx ica_addr }
  let balance_icq_register_msg :=
    Msg.registerBalanceQuery s1.connection_id ica_addr s1.remote_denom s1.icq_update_period
  .ok (s1, [{ msg := balance_icq_register_msg,
              reply_id := some (combine_u32s REGISTER_ICQ_REPLY_KIND ica_idx) }])

/-- `sudo_response`: recovers the ICA index through the settlement key
(fatal if absent) and increments the success counter. -/
def sudo_response (s : ContractState) (request : RequestPacket) :
    Outcome (ContractState × List SubMsg) := do
  let tx_seq_num ← expectSome request.sequence "sequence number always set"
  let source_channel ← expectSome request.source_channel "source channel always set"
  let tx_hash := txHashOf tx_seq_num source_channel
  let ica_idx ← expectSome (s.tx_hash_ica_idx tx_hash)
    "a sequence number is always associated with an ica idx"
  let tx_success_count := (s.ica_tx_success_count ica_idx).getD 0 + 1
  pure ({ s with ica_tx_success_count := updMap s.ica_tx_success_count ica_idx tx_success_count },
    [])

/-- `sudo_error`: same settlement lookup (fatal if absent); appends the
message to the indexed error log under
`combine_u32s(ica_idx, prior error count)` and increments the error
counter. -/
def sudo_error (s : ContractState) (request : RequestPacket) (error : String) :
    Outcome (ContractState × List SubMsg) := do
  let tx_seq_num ← expectSome request.sequence "sequence number always set"
  let source_channel ← expectSome request.source_channel "source channel always set"
  let tx_hash := txHashOf tx_seq_num source_channel
  let ica_idx ← expectSome (s.tx_hash_ica_idx tx_hash)
    "a sequence number is always associated with an ica idx"
  let prior_error_count := (s.ica_tx_error_count ica_idx).getD 0
  let error_key := combine_u32s ica_idx prior_error_count
  pure ({ s with
    ica_tx_error_count := updMap s.ica_tx_error_count ica_idx (prior_error_count + 1)
    ica_err_idx_msg := updMap s.ica_err_idx_msg error_key error }, [])

/-- `sudo_timeout`: same settlement lookup (fatal if absent); increments
the timeout counter. -/
def sudo_timeout (s : ContractState) (request : RequestPacket) :
    Outcome (ContractState × List SubMsg) := do
  let tx_seq_num ← expectSome request.sequence "sequence number always set"
  let source_channel ← expectSome request.source_channel "source channel always set"
  let tx_hash := txHashOf tx_seq_num source_channel
  let ica_idx ← expectSome (s.tx_hash_ica_idx tx_hash)
    "a sequence number is always associated with an ica idx"
  let tx_timeout_count := (s.ica_tx_timeout_count ica_idx).getD 0 + 1
  pure ({ s with ica_tx_timeout_count := updMap s.ica_tx_timeout_count ica_idx tx_timeout_count },
    [])

/-- `sudo_kv_query_result`: resolves the account owning the query (fatal
if unknown) and its address; mutates nothing. -/
def sudo_kv_query_result (s : ContractState) (query_id : Nat) :
    Outcome (ContractState × List SubMsg) := do
  let ica_idx ← expectSome (s.icq_ica_idx query_id) "the icq is associated with an ica"
  let _ica_addr ← expectSome (s.ica_addr ica_idx) "the ica has an address"
  pure (s, [])

/-- `SudoMsg`, with `OpenAck` carrying its parsed payload (see
`sudo_open_ack`). -/
inductive SudoMsg where
  | openAck (ica_idx : Nat) (ica_addr : String)
  | response (request : RequestPacket)
  | error (request : RequestPacket) (details : String)
  | timeout (request : RequestPacket)
  | kvQueryResult (query_id : Nat)
  | txQueryResult
  deriving DecidableEq, Repr

/-- The `sudo` entrypoint dispatcher; `TxQueryResult` is
`unimplemented!`. -/
def sudoEntry (s : ContractState) : SudoMsg → Outcome (ContractState × List SubMsg)
  | .openAck ica_idx ica_addr => sudo_open_ack s ica_idx ica_addr
  | .response request => sudo_response s request
  | .error request details => sudo_error s request details
  | .timeout request => sudo_timeout s request
  | .kvQueryResult query_id => sudo_kv_query_result s query_id
  | .txQueryResult => .panic "not expecting tx query results"

/-! ## Reply entrypoints -/

/-- Structural model of the submessage-reply payload: either the
`MsgRegisterInterchainQueryResponse` or the `MsgSubmitTxResponse` JSON
body. -/
inductive ReplyPayload where
  | icqRegistration (icq_id : Nat)
  | submitTx (sequence_id : Nat) (channel : String)
  deriving DecidableEq, Repr

/-- `cosmwasm_std::Reply`: the correlation id plus the payload;
`payload = none` models a failed submessage result or missing data. -/
structure Reply where
  id : Nat
  payload : Option ReplyPayload
  deriving DecidableEq, Repr

/-- `common::parse_icq_registration_reply`. -/
def parse_icq_registration_reply (r : Reply) : Outcome Nat :=
  match r.payload with
  | none => .err (.parseReply "reply data missing")
  | some (.icqRegistration icq_id) => .ok icq_id
  | some (.submitTx _ _) => .err (.parseReply "invalid reply data")

/-- `common::parse_issue_tx_reply`. -/
def parse_issue_tx_reply (r : Reply) : Outcome (Nat × String) :=
  match r.payload with
  | none => .err (.parseReply "reply data missing")
  | some (.icqRegistration _) => .err (.parseReply "invalid reply data")
  | some (.submitTx sequence_id channel) => .ok (sequence_id, channel)

/-- `reply_register_icq`: records the fresh ICQ id in both directions. -/
def reply_register_icq (s : ContractState) (r : Reply) (ica_idx : Nat) :
    Outcome (ContractState × List SubMsg) := do
  let icq_id ← parse_icq_registration_reply r
  pure ({ s with
    ica_icq_id := updMap s.ica_icq_id ica_idx icq_id
    icq_ica_idx := updMap s.icq_ica_idx icq_id ica_idx }, [])

/-- `reply_issue_tx`: stores the settlement key
`hash!(tx_seq_num.to_be_bytes(), channel) → ica_idx`, records the
per-kind last sequence number, and increments the issued counter. -/
def reply_issue_tx (s : ContractState) (r : Reply) (tx_kind ica_idx : Nat) :
    Outcome (ContractState × List SubMsg) := do
  let (tx_seq_num, channel) ← parse_issue_tx_reply r
  let tx_hash := txHashOf tx_seq_num channel
  let tx_issue_count := (s.ica_tx_issued_count ica_idx).getD 0 + 1
  pure ({ s with
    tx_hash_ica_idx := updMap s.tx_hash_ica_idx tx_hash ica_idx
    ica_tx_kind_seq_num := updMap s.ica_tx_kind_seq_num (combine_u32s ica_idx tx_kind) tx_seq_num
    ica_tx_issued_count := updMap s.ica_tx_issued_count ica_idx tx_issue_count }, [])

/-- The `reply` entrypoint: splits the correlation id into
`(reply_kind, ica_idx)` and dispatches; an unexpected kind is
`unreachable!`. -/
def reply (s : ContractState) (r : Reply) : Outcome (ContractState × List SubMsg) :=
  let (reply_kind, ica_idx) := split_u64 r.id
  if reply_kind = REGISTER_ICQ_REPLY_KIND then
    reply_register_icq s r ica_idx
  else if reply_kind = TRANSFER_TX_REPLY_KIND ∨ reply_kind = RETRIEVE_TX_REPLY_KIND then
    reply_issue_tx s r reply_kind ica_idx
  else
    .panic "unexpected reply kind"

/-! ## Trace semantics -/

/-- One entrypoint invocation, carrying the external-world inputs it
consumes. -/
inductive Event where
  | execMsg (ext : ExtDeps) (env : EnvView) (info : MessageInfo) (msg : ExecuteMsg)
  | sudoMsg (msg : SudoMsg)
  | replyMsg (r : Reply)

/-- Run one invocation against a state. -/
def runEvent (s : ContractState) : Event → Outcome (ContractState × List SubMsg)
  | .execMsg ext env info msg => execute ext env s info msg
  | .sudoMsg msg => sudoEntry s msg
  | .replyMsg r => reply s r

/-- Host semantics of one invocation: on `Ok` the new state is
committed; on a typed error or a panic every write is reverted. -/
def step (s : ContractState) (ev : Event) : ContractState :=
  match runEvent s ev with
  | .ok (s1, _) => s1
  | .err _ => s
  | .panic _ => s

/-- Run a sequence of invocations. -/
def execTrace (s : ContractState) (events : List Event) : ContractState :=
  events.foldl step s

/-! ## Observation helpers and sample data -/

/-- The committed state of a successful invocation, if any. -/
def okState (o : Outcome (ContractState × List SubMsg)) : Option ContractState :=
  match o with
  | .ok (s, _) => some s
  | _ => none

/-- Whether an invocation returned `Ok`. -/
def Outcome.isOk {α : Type} : Outcome α → Bool
  | .ok _ => true
  | _ => false

/-- Success + error + timeout settlements recorded for account `i`. -/
def cnt (s : ContractState) (i : Nat) : Nat :=
  (s.ica_tx_success_count i).getD 0 + (s.ica_tx_error_count i).getD 0 +
    (s.ica_tx_timeout_count i).getD 0

/-- Issued transactions recorded for account `i`. -/
def issuedOf (s : ContractState) (i : Nat) : Nat :=
  (s.ica_tx_issued_count i).getD 0

/-- Sample instantiation configuration (mirrors the e2e test). -/
def cfgMsg : InstantiateMsg where
  connection_id := "connection-0"
  ibc_transfer_channel := "channel-0"
  icq_update_period := 6
  remote_denom := "uatom"
  host_ibc_denom := "ibcatom"

/-- The freshly instantiated sample state. -/
def s0 : ContractState := instantiate cfgMsg

/-- Sample external reads: a 1000+1000 `untrn` IBC fee quote, a
1000000 `untrn` ICQ deposit, and one registered balance query (id 42)
reporting `1000uatom` at height 50. -/
def extSample : ExtDeps where
  min_ibc_fee :=
    { recv_fee := []
      ack_fee := [{ denom := "untrn", amount := 1000 }]
      timeout_fee := [{ denom := "untrn", amount := 1000 }] }
  icq_deposit_fee := { denom := "untrn", amount := 1000000 }
  icq := fun q =>
    if q = 42 then
      some { last_submitted_result_local_height := 50, raw_denom := "uatom", raw_amount := "1000" }
    else none

def envSample : EnvView where
  contract_address := "contract0"
  block_time_nanos := 1000

/-- Sample state with one fully registered account:
owner `"alice"` ↔ index 0, remote address `"remote1"`, balance ICQ 42. -/
def s_acct : ContractState :=
  { s0 with
    ica_count := some 1
    owner_ica_idx := updMap s0.owner_ica_idx "alice" 0
    ica_owner := updMap s0.ica_owner 0 "alice"
    ica_addr := updMap s0.ica_addr 0 "remote1"
    ica_icq_id := updMap s0.ica_icq_id 0 42 }

/-- `s_acct` with the capability token of scenario B recorded. -/
def s_hook : ContractState :=
  { s_acct with rx_hash_ica_idx := updMap s_acct.rx_hash_ica_idx (rxHashOf "remote1" 1000 0) 0 }

/-- `s_acct` with a recorded settlement key for `(7, "chan-0")`. -/
def s_settle : ContractState :=
  { s_acct with tx_hash_ica_idx := updMap s_acct.tx_hash_ica_idx (txHashOf 7 "chan-0") 0 }

/-- A call with enough `untrn` attached to cover `extSample`'s fee. -/
def infoFee : MessageInfo where
  sender := "alice"
  funds := [{ denom := "untrn", amount := 2000 }]

/-- A hook invocation from a relayer with some attached funds. -/
def infoHook : MessageInfo where
  sender := "relayer"
  funds := [{ denom := "uatom", amount := 5 }]

/-! ## Claims -/

/-- A valid second-registration deposit for `extSample`. -/
def infoDeposit : MessageInfo where
  sender := "alice"
  funds := [{ denom := "untrn", amount := 1000000 }]

/-- `extSample` with the observed remote balance reading `0uatom`. -/
def extZero : ExtDeps :=
  { extSample with
    icq := fun q =>
      if q = 42 then
        some { last_submitted_result_local_height := 50, raw_denom := "uatom", raw_amount := "0" }
      else none }

/-- A call whose attached `untrn` is below `extSample`'s 2000 quote. -/
def infoLowFee : MessageInfo where
  sender := "alice"
  funds := [{ denom := "untrn", amount := 1500 }]

/-- The `SubMsg` `execute_retrieve_funds` emits on the sample state. -/
def retrieveMsgSample : SubMsg where
  msg := Msg.submitTx s_acct.connection_id (toString 0)
    (make_ibc_transfer_with_hook_msg s_acct.ibc_transfer_channel
      { denom := "uatom", amount := 1000 } "remote1"
      (envSample.block_time_nanos + DEFAULT_TIMEOUT_SECONDS * 1000000000)
      envSample.contract_address (rxHashOf "remote1" 1000 0))
    DEFAULT_TIMEOUT_SECONDS extSample.min_ibc_fee
  reply_id := some (combine_u32s RETRIEVE_TX_REPLY_KIND 0)

/-- The C4 trace: one submission reply for account 0 followed by two
identical settlement acknowledgements for the same
`(sequence, channel)` pair. -/
def dupSettleTrace : List Event :=
  [Event.replyMsg { id := combine_u32s TRANSFER_TX_REPLY_KIND 0,
                    payload := some (.submitTx 7 "chan-0") },
   Event.sudoMsg (.response { sequence := some 7, source_channel := some "chan-0" }),
   Event.sudoMsg (.response { sequence := some 7, source_channel := some "chan-0" })]

/-- The `(sequence, channel)` pair carried by a settlement notification
(sudo `Response`, `Error`, or `Timeout` with both packet fields set). -/
def settlementKey : Event → Option (Nat × String)
  | .sudoMsg (.response { sequence := some seq, source_channel := some ch }) => some (seq, ch)
  | .sudoMsg (.error { sequence := some seq, source_channel := some ch } _) => some (seq, ch)
  | .sudoMsg (.timeout { sequence := some seq, source_channel := some ch }) => some (seq, ch)
  | _ => none

/-- Association-list view of the settlement ledger writes (latest write
first). -/
def lookupA (written : List (List Nat × Nat)) (k : List Nat) : Option Nat :=
  (written.find? (fun p => p.1 == k)).map Prod.snd

/-- The distinct keys of `written` that map to account `i` and have not
been consumed by a settlement yet. -/
def pendKeys (written : List (List Nat × Nat)) (settled : List (List Nat)) (i : Nat) :
    List (List Nat) :=
  ((written.map Prod.fst).dedup).filter
    (fun k => decide (k ∉ settled ∧ lookupA written k = some i))

/-- The well-behaved trace for the C4 witness: one submission reply and
a single acknowledgement. -/
def goodTrace : List Event :=
  [Event.replyMsg { id := combine_u32s TRANSFER_TX_REPLY_KIND 0,
                    payload := some (.submitTx 7 "chan-0") },
   Event.sudoMsg (.response { sequence := some 7, source_channel := some "chan-0" })]

/-! ## Theorems -/

theorem beBytes_length (w x : Nat) : (beBytes w x).length = w := by
  induction w generalizing x with
  | zero => rfl
  | succ w ih => simp [beBytes, ih]

theorem beBytes_inj {w x y : Nat} (hx : x < 2 ^ (8 * w)) (hy : y < 2 ^ (8 * w))
    (h : beBytes w x = beBytes w y) : x = y := by
  induction w generalizing x y with
  | zero =>
      simp [Nat.mul_zero, Nat.pow_zero, Nat.lt_one_iff] at hx hy
      omega
  | succ w ih =>
      simp only [beBytes] at h
      have h1 := List.append_inj h (by simp [beBytes_length])
      have hlast : x % 256 = y % 256 := by
        have := h1.2
        simpa using this
      have hdiv : x / 256 = y / 256 := by
        refine ih ?_ ?_ h1.1
        · have : x < 256 * 2 ^ (8 * w) := by
            have : (2 : Nat) ^ (8 * (w + 1)) = 256 * 2 ^ (8 * w) := by
              rw [Nat.mul_succ, Nat.pow_add]
              ring
            omega
          omega
        · have : (2 : Nat) ^ (8 * (w + 1)) = 256 * 2 ^ (8 * w) := by
            rw [Nat.mul_succ, Nat.pow_add]
            ring
          omega
      omega

theorem strBytes_inj {s t : String} (h : strBytes s = strBytes t) : s = t := by
  have hl : s.toList = t.toList := by
    have : Function.Injective Char.toNat := by
      intro a b hab
      exact Char.ext (UInt32.ext hab)
    exact List.map_injective_iff.mpr this h
  exact String.ext (by simpa [String.toList] using hl)

theorem combine_u32s_eq_mul_add {a b : Nat} (hb : b < 2 ^ 32) :
    combine_u32s a b = a * 2 ^ 32 + b := by
  unfold combine_u32s
  rw [Nat.shiftLeft_eq, Nat.mul_comm a (2 ^ 32), ← Nat.mul_add_lt_is_or hb a]

theorem split_u64_combine_u32s {k i : Nat} (hk : k < 2 ^ 32) (hi : i < 2 ^ 32) :
    split_u64 (combine_u32s k i) = (k, i) := by
  have hc : combine_u32s k i = k * 2 ^ 32 + i := combine_u32s_eq_mul_add hi
  unfold split_u64
  rw [hc]
  have h1 : (k * 2 ^ 32 + i) >>> 32 = k := by
    rw [Nat.shiftRight_eq_div_pow]
    omega
  have h2 : ((k * 2 ^ 32 + i) <<< 32) % 2 ^ 64 = i * 2 ^ 32 := by
    rw [Nat.shiftLeft_eq]
    omega
  rw [h1, h2]
  have h3 : i * 2 ^ 32 ||| k = 2 ^ 32 * i + k := by
    rw [Nat.mul_comm i (2 ^ 32)]
    exact (Nat.mul_add_lt_is_or hk i).symm
  rw [h3, Nat.shiftRight_eq_div_pow]
  have : (2 ^ 32 * i + k) / 2 ^ 32 = i := by omega
  rw [this]

theorem combine_u32s_split_u64 {x : Nat} (hx : x < 2 ^ 64) :
    combine_u32s (split_u64 x).1 (split_u64 x).2 = x ∧
      (split_u64 x).1 < 2 ^ 32 ∧ (split_u64 x).2 < 2 ^ 32 := by
  unfold split_u64
  have h1 : x >>> 32 = x / 2 ^ 32 := Nat.shiftRight_eq_div_pow x 32
  have h2 : (x <<< 32) % 2 ^ 64 = (x % 2 ^ 32) * 2 ^ 32 := by
    rw [Nat.shiftLeft_eq]
    omega
  have hq : x / 2 ^ 32 < 2 ^ 32 := by omega
  have h3 : (x % 2 ^ 32) * 2 ^ 32 ||| x / 2 ^ 32 = 2 ^ 32 * (x % 2 ^ 32) + x / 2 ^ 32 := by
    rw [Nat.mul_comm (x % 2 ^ 32) (2 ^ 32)]
    exact (Nat.mul_add_lt_is_or hq (x % 2 ^ 32)).symm
  simp only [h1, h2, h3, Nat.shiftRight_eq_div_pow]
  have h4 : (2 ^ 32 * (x % 2 ^ 32) + x / 2 ^ 32) / 2 ^ 32 = x % 2 ^ 32 := by omega
  rw [h4]
  refine ⟨?_, hq, by omega⟩
  rw [combine_u32s_eq_mul_add (by omega)]
  omega

@[simp] theorem updMap_same {κ ν : Type} [DecidableEq κ] (f : κ → Option ν) (k : κ) (v : ν) :
    updMap f k v k = some v := by
  simp [updMap]

theorem updMap_other {κ ν : Type} [DecidableEq κ] (f : κ → Option ν) {k k2 : κ} (v : ν)
    (h : k2 ≠ k) : updMap f k v k2 = f k2 := by
  simp [updMap, h]

/-- C1: `execute_funds_retrieved_hook` with a claimed token absent from
the `rx_hash` ledger fails with `InvalidRxHash` whatever funds are
attached; with a mapping to index `i` (whose owner is recorded) it
succeeds, increments `round_trip_count(i)` by exactly 1, and emits a
bank transfer of exactly `info.funds` to `ica_owner(i)`. -/
theorem claim_C1 (s : ContractState) (info : MessageInfo) (rx_hash : List Nat) :
    (s.rx_hash_ica_idx rx_hash = none →
      execute_funds_retrieved_hook s info rx_hash = .err .invalidRxHash) ∧
    (∀ i owner, s.rx_hash_ica_idx rx_hash = some i → s.ica_owner i = some owner →
      execute_funds_retrieved_hook s info rx_hash =
        .ok ({ s with ica_round_trip_count :=
                 updMap s.ica_round_trip_count i ((s.ica_round_trip_count i).getD 0 + 1) },
             [{ msg := Msg.bankSend owner info.funds, reply_id := none }])) := by
  constructor
  · intro h
    simp [execute_funds_retrieved_hook, h]
  · intro i owner h1 h2
    simp [execute_funds_retrieved_hook, h1, h2]

theorem claim_C1_witness :
    execute_funds_retrieved_hook s_hook infoHook [] = .err .invalidRxHash ∧
    execute_funds_retrieved_hook s_hook infoHook (rxHashOf "remote1" 1000 0) =
      .ok ({ s_hook with ica_round_trip_count :=
               (updMap s_hook.ica_round_trip_count 0
                 ((s_hook.ica_round_trip_count 0).getD 0 + 1)) },
           [{ msg := Msg.bankSend "alice" infoHook.funds, reply_id := none }]) :=
  ⟨(claim_C1 s_hook infoHook []).1 rfl,
   (claim_C1 s_hook infoHook (rxHashOf "remote1" 1000 0)).2 0 "alice" rfl rfl⟩

/-- C2: for `u32` pairs, `split_u64 (combine_u32s k i) = (k, i)`;
`combine_u32s` lands in the `u64` domain and `split_u64` is a two-sided
inverse over it, so the pack operation is a bijection
`u32 × u32 ≃ u64`. -/
theorem claim_C2 :
    (∀ k i : Nat, k < 2 ^ 32 → i < 2 ^ 32 → split_u64 (combine_u32s k i) = (k, i)) ∧
    (∀ k i : Nat, k < 2 ^ 32 → i < 2 ^ 32 → combine_u32s k i < 2 ^ 64) ∧
    (∀ x : Nat, x < 2 ^ 64 →
      combine_u32s (split_u64 x).1 (split_u64 x).2 = x ∧
        (split_u64 x).1 < 2 ^ 32 ∧ (split_u64 x).2 < 2 ^ 32) := by
  refine ⟨fun k i hk hi => split_u64_combine_u32s hk hi, fun k i hk hi => ?_,
    fun x hx => combine_u32s_split_u64 hx⟩
  rw [combine_u32s_eq_mul_add hi]
  omega

theorem claim_C2_witness :
    split_u64 (combine_u32s 3 7) = (3, 7) ∧ combine_u32s 3 7 < 2 ^ 64 ∧
      combine_u32s (split_u64 9).1 (split_u64 9).2 = 9 :=
  ⟨claim_C2.1 3 7 (by decide) (by decide), claim_C2.2.1 3 7 (by decide) (by decide),
   (claim_C2.2.2 9 (by decide)).1⟩

/-- C3: each settlement handler (`sudo_response`, `sudo_error`,
`sudo_timeout`) on a `(sequence, channel)` pair with no recorded
`tx_hash → ica_idx` mapping aborts the invocation with a panic, never
returning success; when the mapping points to `i`, `sudo_response`
succeeds and increments `success(i)` by exactly 1. -/
theorem claim_C3 (s : ContractState) (seq : Nat) (ch : String) (details : String) :
    (s.tx_hash_ica_idx (txHashOf seq ch) = none →
      sudo_response s { sequence := some seq, source_channel := some ch } =
          .panic "a sequence number is always associated with an ica idx" ∧
      sudo_error s { sequence := some seq, source_channel := some ch } details =
          .panic "a sequence number is always associated with an ica idx" ∧
      sudo_timeout s { sequence := some seq, source_channel := some ch } =
          .panic "a sequence number is always associated with an ica idx") ∧
    (∀ i, s.tx_hash_ica_idx (txHashOf seq ch) = some i →
      sudo_response s { sequence := some seq, source_channel := some ch } =
        .ok ({ s with ica_tx_success_count :=
                 updMap s.ica_tx_success_count i ((s.ica_tx_success_count i).getD 0 + 1) },
             [])) := by
  constructor
  · intro h
    refine ⟨?_, ?_, ?_⟩ <;> simp [sudo_response, sudo_error, sudo_timeout, h]
  · intro i h
    simp [sudo_response, h]

theorem claim_C3_witness :
    (sudo_response s_settle { sequence := some 8, source_channel := some "chan-0" } =
        .panic "a sequence number is always associated with an ica idx" ∧
      sudo_error s_settle { sequence := some 8, source_channel := some "chan-0" } "boom" =
        .panic "a sequence number is always associated with an ica idx" ∧
      sudo_timeout s_settle { sequence := some 8, source_channel := some "chan-0" } =
        .panic "a sequence number is always associated with an ica idx") ∧
    sudo_response s_settle { sequence := some 7, source_channel := some "chan-0" } =
      .ok ({ s_settle with ica_tx_success_count :=
               (updMap s_settle.ica_tx_success_count 0
                 ((s_settle.ica_tx_success_count 0).getD 0 + 1)) }, []) :=
  ⟨(claim_C3 s_settle 8 "chan-0" "boom").1 rfl,
   (claim_C3 s_settle 7 "chan-0" "boom").2 0 rfl⟩

/-- C5 (counterexample): the claim says `execute_retrieve_funds` itself
increments the issued counter before deriving the token; on the sample
registered account the call succeeds yet leaves `ica_tx_issued_count 0`
unset (it only reads it). -/
theorem claim_C5_counterexample :
    Outcome.isOk (execute_retrieve_funds extSample envSample s_acct infoFee) = true ∧
    (okState (execute_retrieve_funds extSample envSample s_acct infoFee)).bind
        (fun s1 => s1.ica_tx_issued_count 0) = none ∧
    s_acct.ica_tx_issued_count 0 = none :=
  ⟨rfl, rfl, rfl⟩

/-- C5 (amended): `execute_retrieve_funds` never changes the issued
counter — it only reads the current count as the transaction index —
while `reply_issue_tx` unconditionally increments `issued` by exactly 1
for the replied account (and no other), for both the transfer and the
retrieve reply kinds, which are exactly the kinds `reply` routes to it;
so `issued` is incremented exactly once per submitted transaction, in
the reply handler. -/
theorem claim_C5_amended :
    (∀ (ext : ExtDeps) (env : EnvView) (s : ContractState) (info : MessageInfo) out,
        execute_retrieve_funds ext env s info = .ok out →
        out.1.ica_tx_issued_count = s.ica_tx_issued_count) ∧
    (∀ (s : ContractState) (r : Reply) (tx_kind ica_idx : Nat) out,
        reply_issue_tx s r tx_kind ica_idx = .ok out →
        out.1.ica_tx_issued_count ica_idx =
            some ((s.ica_tx_issued_count ica_idx).getD 0 + 1) ∧
          ∀ j, j ≠ ica_idx → out.1.ica_tx_issued_count j = s.ica_tx_issued_count j) ∧
    (∀ (s : ContractState) (r : Reply),
        (split_u64 r.id).1 = TRANSFER_TX_REPLY_KIND ∨
          (split_u64 r.id).1 = RETRIEVE_TX_REPLY_KIND →
        reply s r = reply_issue_tx s r (split_u64 r.id).1 (split_u64 r.id).2) := by
  refine ⟨?_, ?_, ?_⟩
  · intro ext env s info out h
    unfold execute_retrieve_funds at h
    dsimp only at h
    cases hc : is_ibc_fee_covered info ext.min_ibc_fee <;> rw [hc] at h <;> simp at h
    case ok covered =>
      cases covered <;> simp at h
      cases ho : s.owner_ica_idx info.sender <;> simp [ho] at h
      case some ica_idx =>
        cases hq : s.ica_icq_id ica_idx <;> simp [hq] at h
        case some icq_id =>
          cases hb : query_balance_icq ext.icq icq_id <;> rw [hb] at h <;> simp at h
          case ok res =>
            cases hnz : (res.bind RemoteBalance.balance).filter (fun c => c.amount != 0) <;>
              simp [hnz] at h
            case some nz =>
              cases ha : s.ica_addr ica_idx <;> simp [ha] at h
              case some addr =>
                subst h
                rfl
  · intro s r tx_kind ica_idx out h
    unfold reply_issue_tx at h
    dsimp only at h
    cases hp : parse_issue_tx_reply r <;> rw [hp] at h <;> simp at h
    case ok seq_ch =>
      subst h
      refine ⟨by simp [updMap], ?_⟩
      intro j hj
      simp [updMap, hj]
  · intro s r hkind
    rcases hsp : split_u64 r.id with ⟨a, b⟩
    rw [hsp] at hkind
    simp only at hkind
    rcases hkind with h1 | h1 <;>
      simp [reply, hsp, h1, REGISTER_ICQ_REPLY_KIND, TRANSFER_TX_REPLY_KIND,
        RETRIEVE_TX_REPLY_KIND]

theorem claim_C5_witness :
    reply s0 { id := combine_u32s TRANSFER_TX_REPLY_KIND 0,
               payload := some (.submitTx 7 "chan-0") } =
      reply_issue_tx s0
        { id := combine_u32s TRANSFER_TX_REPLY_KIND 0,
          payload := some (.submitTx 7 "chan-0") }
        (split_u64 (combine_u32s TRANSFER_TX_REPLY_KIND 0)).1
        (split_u64 (combine_u32s TRANSFER_TX_REPLY_KIND 0)).2 :=
  claim_C5_amended.2.2 s0
    { id := combine_u32s TRANSFER_TX_REPLY_KIND 0, payload := some (.submitTx 7 "chan-0") }
    (Or.inl (by decide))

/-- C6 (counterexample): the claim says a second `SetupIca` from an
already-registered owner fails with a typed `AlreadyRegistered` error
and does not allocate a fresh index or overwrite the mapping; on the
sample state (owner `"alice"` already at index 0) the call succeeds and
moves `owner_ica_idx "alice"` from `some 0` to `some 1`. -/
theorem claim_C6_counterexample :
    Outcome.isOk (execute_setup_ica extSample s_acct infoDeposit) = true ∧
    (okState (execute_setup_ica extSample s_acct infoDeposit)).bind
        (fun s1 => s1.owner_ica_idx "alice") = some 1 ∧
    s_acct.owner_ica_idx "alice" = some 0 :=
  ⟨rfl, rfl, rfl⟩

/-- C6 (amended): `execute_setup_ica` performs no already-registered
check (and the error type has no `AlreadyRegistered` variant): a second
`SetupIca` from an owner who already has an account, with a valid
deposit attached, succeeds, allocates the next fresh index, and
overwrites the `owner → ica_idx` mapping to that new index. -/
theorem claim_C6_amended (ext : ExtDeps) (s : ContractState) (info : MessageInfo)
    (j : Nat) (d : Coin)
    (hreg : s.owner_ica_idx info.sender = some j)
    (hd : info.funds.head? = some d)
    (hdenom : d.denom = ext.icq_deposit_fee.denom)
    (hamt : ext.icq_deposit_fee.amount ≤ d.amount) :
    execute_setup_ica ext s info =
      .ok ({ s with
              ica_count := some (s.ica_count.getD 0 + 1)
              owner_ica_idx := (updMap s.owner_ica_idx info.sender (s.ica_count.getD 0))
              ica_owner := (updMap s.ica_owner (s.ica_count.getD 0) info.sender) },
           [{ msg := Msg.registerInterchainAccount s.connection_id
                       (toString (s.ica_count.getD 0)),
              reply_id := none }]) ∧
    (updMap s.owner_ica_idx info.sender (s.ica_count.getD 0)) info.sender =
      some (s.ica_count.getD 0) := by
  constructor
  · unfold execute_setup_ica
    dsimp only
    rw [hd]
    simp only [ofOption_some, bind_eq_bind, Outcome.bind_ok, pure_eq_ok]
    rw [if_neg (by simp [hdenom]), if_neg (by omega)]
  · simp [updMap]

theorem claim_C6_witness :
    execute_setup_ica extSample s_acct infoDeposit =
      .ok ({ s_acct with
              ica_count := some (s_acct.ica_count.getD 0 + 1)
              owner_ica_idx := (updMap s_acct.owner_ica_idx "alice" (s_acct.ica_count.getD 0))
              ica_owner := (updMap s_acct.ica_owner (s_acct.ica_count.getD 0) "alice") },
           [{ msg := Msg.registerInterchainAccount s_acct.connection_id
                       (toString (s_acct.ica_count.getD 0)),
              reply_id := none }]) ∧
    (updMap s_acct.owner_ica_idx "alice" (s_acct.ica_count.getD 0)) "alice" =
      some (s_acct.ica_count.getD 0) :=
  claim_C6_amended extSample s_acct infoDeposit 0 { denom := "untrn", amount := 1000000 }
    rfl rfl rfl (by decide)

theorem query_balance_icq_err {icq : Nat → Option IcqView} {q : Nat} {e : Error}
    (hb : query_balance_icq icq q = .err e) : ∃ m, e = .queryBalanceIcq m := by
  unfold query_balance_icq at hb
  cases hv : icq q <;> rw [hv] at hb
  case none =>
    simp at hb
    exact ⟨_, hb.symm⟩
  case some v =>
    by_cases h1 : v.last_submitted_result_local_height = 0
    · simp [h1] at hb
    · by_cases h2 : v.raw_denom = "" ∧ v.raw_amount = ""
      · simp [h1, h2] at hb
      · cases hp : parseNat v.raw_amount
        · simp [h1, h2, hp] at hb
          exact ⟨_, hb.symm⟩
        · simp [h1, h2, hp] at hb

/-- C7: for a fee-covered call on an account with a registered balance
observation query (and a known remote address), `execute_retrieve_funds`
fails with `NoFundsToRetrieve` exactly when the observed balance is
absent — the query never updated, or it reported no balance coin — or
its amount is exactly zero; when the observed balance is present and
non-zero the call succeeds, storing the capability token and emitting
the remote `SubmitTx` request tagged with the retrieve reply kind. -/
theorem claim_C7 (ext : ExtDeps) (env : EnvView) (s : ContractState) (info : MessageInfo)
    (i q : Nat) (a : String)
    (hcov : is_ibc_fee_covered info ext.min_ibc_fee = .ok true)
    (hown : s.owner_ica_idx info.sender = some i)
    (hicq : s.ica_icq_id i = some q)
    (haddr : s.ica_addr i = some a) :
    (execute_retrieve_funds ext env s info = .err .noFundsToRetrieve ↔
      query_balance_icq ext.icq q = .ok none ∨
        (∃ h0, query_balance_icq ext.icq q =
          .ok (some { last_submitted_result_local_height := h0, balance := none })) ∨
        (∃ h0 d, query_balance_icq ext.icq q =
          .ok (some { last_submitted_result_local_height := h0,
                      balance := some { denom := d, amount := 0 } }))) ∧
    (∀ h0 d amt, amt ≠ 0 →
      query_balance_icq ext.icq q =
        .ok (some { last_submitted_result_local_height := h0,
                    balance := some { denom := d, amount := amt } }) →
      execute_retrieve_funds ext env s info =
        .ok ({ s with rx_hash_ica_idx := (updMap s.rx_hash_ica_idx
                 (rxHashOf a amt ((s.ica_tx_issued_count i).getD 0)) i) },
             [{ msg := Msg.submitTx s.connection_id (toString i)
                  (make_ibc_transfer_with_hook_msg s.ibc_transfer_channel
                    { denom := d, amount := amt } a
                    (env.block_time_nanos + DEFAULT_TIMEOUT_SECONDS * 1000000000)
                    env.contract_address
                    (rxHashOf a amt ((s.ica_tx_issued_count i).getD 0)))
                  DEFAULT_TIMEOUT_SECONDS ext.min_ibc_fee,
                reply_id := some (combine_u32s RETRIEVE_TX_REPLY_KIND i) }])) := by
  constructor
  · constructor
    · intro h
      unfold execute_retrieve_funds at h
      dsimp only at h
      rw [hcov] at h
      simp only [bind_eq_bind, Outcome.bind_ok, Bool.not_true, Bool.false_eq_true,
        if_false, hown, ofOption_some] at h
      rw [hicq] at h
      simp only [ofOption_some, Outcome.bind_ok] at h
      cases hb : query_balance_icq ext.icq q <;> rw [hb] at h
      case ok res =>
        rcases res with _ | ⟨h0v, bal⟩
        · exact Or.inl rfl
        · rcases bal with _ | ⟨cd, ca⟩
          · exact Or.inr (Or.inl ⟨h0v, rfl⟩)
          · by_cases hz : ca = 0
            · subst hz
              exact Or.inr (Or.inr ⟨h0v, cd, rfl⟩)
            · exfalso
              have hnz : (ca != 0) = true := by simpa using hz
              simp [Option.filter, hnz, hz, haddr] at h
      case err e =>
        simp at h
        obtain ⟨m, hm⟩ := query_balance_icq_err hb
        rw [hm] at h
        simp at h
      case panic m =>
        simp at h
    · intro h
      unfold execute_retrieve_funds
      dsimp only
      rw [hcov]
      simp only [bind_eq_bind, Outcome.bind_ok, Bool.not_true, Bool.false_eq_true,
        if_false, hown, ofOption_some]
      rw [hicq]
      simp only [ofOption_some, Outcome.bind_ok]
      rcases h with h | ⟨h0, h⟩ | ⟨h0, d, h⟩ <;> rw [h] <;> simp [Option.filter]
  · intro h0 d amt hamt hq
    unfold execute_retrieve_funds
    dsimp only
    rw [hcov]
    simp only [bind_eq_bind, Outcome.bind_ok, Bool.not_true, Bool.false_eq_true,
      if_false, hown, ofOption_some]
    rw [hicq]
    simp only [ofOption_some, Outcome.bind_ok]
    rw [hq]
    simp only [Outcome.bind_ok, Option.some_bind]
    rw [Option.filter_some, if_pos (by simpa using hamt)]
    simp [haddr]

theorem claim_C7_witness :
    execute_retrieve_funds extZero envSample s_acct infoFee = .err .noFundsToRetrieve :=
  ((claim_C7 extZero envSample s_acct infoFee 0 42 "remote1" rfl rfl rfl rfl).1).mpr
    (Or.inr (Or.inr ⟨50, "uatom", rfl⟩))

/-- C8: user-input failure paths return typed errors — missing, wrong
denomination, or insufficient ICQ deposit on setup; an attached fee
below the quoted minimum (`InsufficientIbcTxFee`) on both transfer and
retrieve; no matching transfer coin; no account registered; an unknown
retrieval token — and any invocation that returns a typed error commits
no storage change (and, carrying no `Ok` response, emits no message). -/
theorem claim_C8 :
    (∀ (ext : ExtDeps) (env : EnvView) (s : ContractState) (info : MessageInfo),
        is_ibc_fee_covered info ext.min_ibc_fee = .ok false →
        execute_transfer_funds ext env s info = .err .insufficientIbcTxFee ∧
          execute_retrieve_funds ext env s info = .err .insufficientIbcTxFee) ∧
    (∀ (ext : ExtDeps) (s : ContractState) (info : MessageInfo),
        info.funds.head? = none →
        execute_setup_ica ext s info = .err .icqDepositMissing) ∧
    (∀ (ext : ExtDeps) (s : ContractState) (info : MessageInfo) (d : Coin),
        info.funds.head? = some d → d.denom ≠ ext.icq_deposit_fee.denom →
        execute_setup_ica ext s info = .err .incorrectIcqDepositAsset) ∧
    (∀ (ext : ExtDeps) (s : ContractState) (info : MessageInfo) (d : Coin),
        info.funds.head? = some d → d.denom = ext.icq_deposit_fee.denom →
        d.amount < ext.icq_deposit_fee.amount →
        execute_setup_ica ext s info = .err .insufficientIcqDeposit) ∧
    (∀ (ext : ExtDeps) (env : EnvView) (s : ContractState) (info : MessageInfo),
        is_ibc_fee_covered info ext.min_ibc_fee = .ok true →
        info.funds.find? (fun c => c.denom == s.host_ibc_denom) = none →
        execute_transfer_funds ext env s info = .err .noFundsToTransfer) ∧
    (∀ (ext : ExtDeps) (env : EnvView) (s : ContractState) (info : MessageInfo) (c : Coin),
        is_ibc_fee_covered info ext.min_ibc_fee = .ok true →
        info.funds.find? (fun c2 => c2.denom == s.host_ibc_denom) = some c →
        s.owner_ica_idx info.sender = none →
        execute_transfer_funds ext env s info = .err .noIcaSetup) ∧
    (∀ (s : ContractState) (info : MessageInfo) (rx : List Nat),
        s.rx_hash_ica_idx rx = none →
        execute_funds_retrieved_hook s info rx = .err .invalidRxHash) ∧
    (∀ (s : ContractState) (ev : Event) (e : Error),
        runEvent s ev = .err e → step s ev = s) := by
  refine ⟨?_, ?_, ?_, ?_, ?_, ?_, ?_, ?_⟩
  · intro ext env s info hcov
    constructor <;> [unfold execute_transfer_funds; unfold execute_retrieve_funds] <;>
      dsimp only <;> rw [hcov] <;> simp
  · intro ext s info hd
    unfold execute_setup_ica
    dsimp only
    rw [hd]
    simp
  · intro ext s info d hd hdenom
    unfold execute_setup_ica
    dsimp only
    rw [hd]
    simp only [ofOption_some, bind_eq_bind, Outcome.bind_ok]
    rw [if_pos hdenom]
  · intro ext s info d hd hdenom hamt
    unfold execute_setup_ica
    dsimp only
    rw [hd]
    simp only [ofOption_some, bind_eq_bind, Outcome.bind_ok]
    rw [if_neg (by simp [hdenom]), if_pos hamt]
  · intro ext env s info hcov hfind
    unfold execute_transfer_funds
    dsimp only
    rw [hcov]
    simp [hfind]
  · intro ext env s info c hcov hfind hown
    unfold execute_transfer_funds
    dsimp only
    rw [hcov]
    simp [hfind, hown]
  · intro s info rx hrx
    simp [execute_funds_retrieved_hook, hrx]
  · intro s ev e h
    simp [step, h]

theorem claim_C8_witness :
    execute_transfer_funds extSample envSample s_acct infoLowFee = .err .insufficientIbcTxFee ∧
    execute_setup_ica extSample s_acct { sender := "bob", funds := [] } =
      .err .icqDepositMissing ∧
    execute_funds_retrieved_hook s_acct infoHook [] = .err .invalidRxHash ∧
    step s_acct (Event.execMsg extSample envSample infoLowFee ExecuteMsg.transferFunds) =
      s_acct :=
  ⟨(claim_C8.1 extSample envSample s_acct infoLowFee rfl).1,
   claim_C8.2.1 extSample s_acct { sender := "bob", funds := [] } rfl,
   claim_C8.2.2.2.2.2.2.1 s_acct infoHook [] rfl,
   claim_C8.2.2.2.2.2.2.2 s_acct
     (Event.execMsg extSample envSample infoLowFee ExecuteMsg.transferFunds)
     .insufficientIbcTxFee rfl⟩

/-- C9: whenever `execute_retrieve_funds` succeeds, the capability token
it persists is the hash primitive applied to the remote account address
bytes followed by the big-endian `u128` encoding of the observed
balance amount and the big-endian `u32` encoding of the account's
current transaction index; the token recorded in the `rx_hash` ledger
maps back to the account, and it is exactly the token embedded in the
hook callback of the emitted `SubmitTx` directive. -/
theorem claim_C9 (ext : ExtDeps) (env : EnvView) (s : ContractState) (info : MessageInfo)
    (s1 : ContractState) (msgs : List SubMsg)
    (h : execute_retrieve_funds ext env s info = .ok (s1, msgs)) :
    ∃ i a amt,
      s.owner_ica_idx info.sender = some i ∧
      s.ica_addr i = some a ∧
      (∃ q h0 d, s.ica_icq_id i = some q ∧
        query_balance_icq ext.icq q =
          .ok (some { last_submitted_result_local_height := h0,
                      balance := some { denom := d, amount := amt } }) ∧ amt ≠ 0) ∧
      rxHashOf a amt ((s.ica_tx_issued_count i).getD 0) =
        hashBytes [strBytes a, beBytes 16 amt,
          beBytes 4 ((s.ica_tx_issued_count i).getD 0)] ∧
      s1.rx_hash_ica_idx (rxHashOf a amt ((s.ica_tx_issued_count i).getD 0)) = some i ∧
      ∃ payload : HookTransfer,
        msgs = [{ msg := Msg.submitTx s.connection_id (toString i) payload
                    DEFAULT_TIMEOUT_SECONDS ext.min_ibc_fee,
                  reply_id := some (combine_u32s RETRIEVE_TX_REPLY_KIND i) }] ∧
        payload.hook_rx_hash = rxHashOf a amt ((s.ica_tx_issued_count i).getD 0) := by
  unfold execute_retrieve_funds at h
  dsimp only at h
  cases hc : is_ibc_fee_covered info ext.min_ibc_fee <;> rw [hc] at h <;> simp at h
  case ok covered =>
    cases covered <;> simp at h
    cases ho : s.owner_ica_idx info.sender <;> simp [ho] at h
    case some ica_idx =>
      cases hq : s.ica_icq_id ica_idx <;> simp [hq] at h
      case some icq_id =>
        cases hb : query_balance_icq ext.icq icq_id <;> rw [hb] at h <;> simp at h
        case ok res =>
          cases hnz : (res.bind RemoteBalance.balance).filter (fun c => c.amount != 0) <;>
            simp [hnz] at h
          case some nz =>
            cases ha : s.ica_addr ica_idx <;> simp [ha] at h
            case some addr =>
              obtain ⟨hmem, hpred⟩ := Option.filter_eq_some.mp hnz
              obtain ⟨rb, hrb⟩ : ∃ rb, res = some rb := by
                cases res with
                | none => simp at hmem
                | some rb => exact ⟨rb, rfl⟩
              subst hrb
              simp only [Option.some_bind, Option.mem_def] at hmem
              refine ⟨ica_idx, addr, nz.amount, rfl, ha,
                ⟨icq_id, rb.last_submitted_result_local_height,
                  nz.denom, hq, ?_, by simpa using hpred⟩, rfl, ?_, ?_⟩
              · rw [hb, ← hmem]
              · rw [← h.1]
                simp
              · refine ⟨make_ibc_transfer_with_hook_msg s.ibc_transfer_channel nz addr
                  (env.block_time_nanos + DEFAULT_TIMEOUT_SECONDS * 1000000000)
                  env.contract_address
                  (rxHashOf addr nz.amount ((s.ica_tx_issued_count ica_idx).getD 0)), ?_, rfl⟩
                rw [← h.2]

theorem claim_C9_witness :
    ∃ i a amt,
      s_acct.owner_ica_idx infoFee.sender = some i ∧
      s_acct.ica_addr i = some a ∧
      (∃ q h0 d, s_acct.ica_icq_id i = some q ∧
        query_balance_icq extSample.icq q =
          .ok (some { last_submitted_result_local_height := h0,
                      balance := some { denom := d, amount := amt } }) ∧ amt ≠ 0) ∧
      rxHashOf a amt ((s_acct.ica_tx_issued_count i).getD 0) =
        hashBytes [strBytes a, beBytes 16 amt,
          beBytes 4 ((s_acct.ica_tx_issued_count i).getD 0)] ∧
      s_hook.rx_hash_ica_idx (rxHashOf a amt ((s_acct.ica_tx_issued_count i).getD 0)) =
        some i ∧
      ∃ payload : HookTransfer,
        [retrieveMsgSample] =
          [{ msg := Msg.submitTx s_acct.connection_id (toString i) payload
               DEFAULT_TIMEOUT_SECONDS extSample.min_ibc_fee,
             reply_id := some (combine_u32s RETRIEVE_TX_REPLY_KIND i) }] ∧
        payload.hook_rx_hash = rxHashOf a amt ((s_acct.ica_tx_issued_count i).getD 0) :=
  claim_C9 extSample envSample s_acct infoFee s_hook [retrieveMsgSample] rfl

theorem execTrace_append (s : ContractState) (l1 l2 : List Event) :
    execTrace s (l1 ++ l2) = execTrace (execTrace s l1) l2 := by
  unfold execTrace
  exact List.foldl_append step s l1 l2

/-- A successful hook call: committed state and emitted message. -/
theorem hook_ok {s : ContractState} {info : MessageInfo} {rx : List Nat} {i : Nat}
    {owner : String}
    (h1 : s.rx_hash_ica_idx rx = some i) (h2 : s.ica_owner i = some owner) :
    execute_funds_retrieved_hook s info rx =
      .ok ({ s with ica_round_trip_count := (updMap s.ica_round_trip_count i
               ((s.ica_round_trip_count i).getD 0 + 1)) },
           [{ msg := Msg.bankSend owner info.funds, reply_id := none }]) := by
  simp [execute_funds_retrieved_hook, h1, h2]

/-- Iterating the hook with a once-recorded token: every iteration
succeeds, the token mapping and owner survive, and the round-trip
counter advances by one per call. -/
theorem hook_iter (ext : ExtDeps) (env : EnvView) (rx : List Nat) (i : Nat) (owner : String)
    (infoSeq : Nat → MessageInfo) :
    ∀ (n : Nat) (s : ContractState),
      s.rx_hash_ica_idx rx = some i → s.ica_owner i = some owner →
      (execTrace s ((List.range n).map (fun j =>
          Event.execMsg ext env (infoSeq j) (ExecuteMsg.fundsRetrievedHook rx)))).rx_hash_ica_idx
          rx = some i ∧
      (execTrace s ((List.range n).map (fun j =>
          Event.execMsg ext env (infoSeq j) (ExecuteMsg.fundsRetrievedHook rx)))).ica_owner i =
          some owner ∧
      ((execTrace s ((List.range n).map (fun j =>
          Event.execMsg ext env (infoSeq j)
            (ExecuteMsg.fundsRetrievedHook rx)))).ica_round_trip_count i).getD 0 =
        (s.ica_round_trip_count i).getD 0 + n ∧
      ∀ j < n, ∃ s1,
        runEvent (execTrace s ((List.range j).map (fun j2 =>
            Event.execMsg ext env (infoSeq j2) (ExecuteMsg.fundsRetrievedHook rx))))
          (Event.execMsg ext env (infoSeq j) (ExecuteMsg.fundsRetrievedHook rx)) =
          .ok (s1, [{ msg := Msg.bankSend owner (infoSeq j).funds, reply_id := none }]) := by
  intro n
  induction n with
  | zero =>
      intro s h1 h2
      simp [execTrace, h1, h2]
  | succ n ih =>
      intro s h1 h2
      obtain ⟨ih1, ih2, ih3, ih4⟩ := ih s h1 h2
      rw [List.range_succ, List.map_append]
      rw [execTrace_append]
      set sn := execTrace s ((List.range n).map (fun j =>
        Event.execMsg ext env (infoSeq j) (ExecuteMsg.fundsRetrievedHook rx))) with hsn
      have hrun : runEvent sn (Event.execMsg ext env (infoSeq n)
          (ExecuteMsg.fundsRetrievedHook rx)) =
          .ok ({ sn with ica_round_trip_count := (updMap sn.ica_round_trip_count i
                   ((sn.ica_round_trip_count i).getD 0 + 1)) },
               [{ msg := Msg.bankSend owner (infoSeq n).funds, reply_id := none }]) :=
        hook_ok ih1 ih2
      refine ⟨?_, ?_, ?_, ?_⟩
      · simp [execTrace, step, hrun, ih1]
      · simp [execTrace, step, hrun, ih2]
      · simp [execTrace, step, hrun, ih3]
        omega
      · intro j hj
        rcases Nat.lt_succ_iff_lt_or_eq.mp hj with hj2 | rfl
        · exact ih4 j hj2
        · exact ⟨_, hrun⟩

/-- C10: a successful `execute_funds_retrieved_hook` call changes only
the account's round-trip counter (and emits the bank transfer); in
particular it never deletes or alters the `rx_hash → ica_idx` mapping
it consumed, so a once-recorded capability token can be replayed: any
number of repeated hook invocations with the same token all succeed,
each incrementing `round_trip_count` by 1 and each forwarding exactly
the funds attached to that call. -/
theorem claim_C10 (s : ContractState) (rx : List Nat) (i : Nat) (owner : String)
    (hrx : s.rx_hash_ica_idx rx = some i) (hown : s.ica_owner i = some owner) :
    (∀ info s1 msgs, execute_funds_retrieved_hook s info rx = .ok (s1, msgs) →
        s1.rx_hash_ica_idx = s.rx_hash_ica_idx ∧
        s1.connection_id = s.connection_id ∧
        s1.ibc_transfer_channel = s.ibc_transfer_channel ∧
        s1.remote_denom = s.remote_denom ∧
        s1.icq_update_period = s.icq_update_period ∧
        s1.host_ibc_denom = s.host_ibc_denom ∧
        s1.ica_count = s.ica_count ∧
        s1.owner_ica_idx = s.owner_ica_idx ∧
        s1.tx_hash_ica_idx = s.tx_hash_ica_idx ∧
        s1.ica_owner = s.ica_owner ∧
        s1.ica_addr = s.ica_addr ∧
        s1.ica_icq_id = s.ica_icq_id ∧
        s1.ica_tx_issued_count = s.ica_tx_issued_count ∧
        s1.ica_tx_success_count = s.ica_tx_success_count ∧
        s1.ica_tx_error_count = s.ica_tx_error_count ∧
        s1.ica_tx_timeout_count = s.ica_tx_timeout_count ∧
        s1.ica_tx_kind_seq_num = s.ica_tx_kind_seq_num ∧
        s1.ica_err_idx_msg = s.ica_err_idx_msg ∧
        s1.icq_ica_idx = s.icq_ica_idx ∧
        s1.ica_round_trip_count i = some ((s.ica_round_trip_count i).getD 0 + 1) ∧
        (∀ j, j ≠ i → s1.ica_round_trip_count j = s.ica_round_trip_count j) ∧
        msgs = [{ msg := Msg.bankSend owner info.funds, reply_id := none }]) ∧
    (∀ (ext : ExtDeps) (env : EnvView) (infoSeq : Nat → MessageInfo) (n : Nat),
        ((execTrace s ((List.range n).map (fun j =>
            Event.execMsg ext env (infoSeq j)
              (ExecuteMsg.fundsRetrievedHook rx)))).ica_round_trip_count i).getD 0 =
          (s.ica_round_trip_count i).getD 0 + n ∧
        (execTrace s ((List.range n).map (fun j =>
            Event.execMsg ext env (infoSeq j)
              (ExecuteMsg.fundsRetrievedHook rx)))).rx_hash_ica_idx rx = some i ∧
        ∀ j < n, ∃ s1,
          runEvent (execTrace s ((List.range j).map (fun j2 =>
              Event.execMsg ext env (infoSeq j2) (ExecuteMsg.fundsRetrievedHook rx))))
            (Event.execMsg ext env (infoSeq j) (ExecuteMsg.fundsRetrievedHook rx)) =
            .ok (s1, [{ msg := Msg.bankSend owner (infoSeq j).funds, reply_id := none }])) := by
  constructor
  · intro info s1 msgs h
    rw [hook_ok hrx hown] at h
    have h1 : ({ s with ica_round_trip_count := (updMap s.ica_round_trip_count i
        ((s.ica_round_trip_count i).getD 0 + 1)) } : ContractState) = s1 ∧
        [({ msg := Msg.bankSend owner info.funds, reply_id := none } : SubMsg)] = msgs := by
      have := h
      simp only [Outcome.ok.injEq, Prod.mk.injEq] at this
      exact this
    obtain ⟨hs, hm⟩ := h1
    subst hs
    subst hm
    refine ⟨rfl, rfl, rfl, rfl, rfl, rfl, rfl, rfl, rfl, rfl, rfl, rfl, rfl, rfl, rfl, rfl,
      rfl, rfl, rfl, by simp, ?_, rfl⟩
    intro j hj
    exact updMap_other _ _ hj
  · intro ext env infoSeq n
    obtain ⟨g1, g2, g3, g4⟩ := hook_iter ext env rx i owner infoSeq n s hrx hown
    exact ⟨g3, g1, g4⟩

theorem claim_C10_witness :
    ((execTrace s_hook ((List.range 3).map (fun _ =>
        Event.execMsg extSample envSample infoHook
          (ExecuteMsg.fundsRetrievedHook
            (rxHashOf "remote1" 1000 0))))).ica_round_trip_count 0).getD 0 =
      (s_hook.ica_round_trip_count 0).getD 0 + 3 ∧
    (execTrace s_hook ((List.range 3).map (fun _ =>
        Event.execMsg extSample envSample infoHook
          (ExecuteMsg.fundsRetrievedHook
            (rxHashOf "remote1" 1000 0))))).rx_hash_ica_idx (rxHashOf "remote1" 1000 0) =
      some 0 :=
  ⟨((claim_C10 s_hook (rxHashOf "remote1" 1000 0) 0 "alice" rfl rfl).2 extSample envSample
      (fun _ => infoHook) 3).1,
   ((claim_C10 s_hook (rxHashOf "remote1" 1000 0) 0 "alice" rfl rfl).2 extSample envSample
      (fun _ => infoHook) 3).2.1⟩

/-- C4 (counterexample): the code never guards against a settlement
notification being delivered twice for the same recorded submission, so
`success + error + timeout ≤ issued` is not an invariant of arbitrary
entrypoint sequences: after one recorded submission and a duplicated
acknowledgement, account 0 has `success = 2` but `issued = 1`. -/
theorem claim_C4_counterexample :
    ¬ cnt (execTrace s0 dupSettleTrace) 0 ≤ issuedOf (execTrace s0 dupSettleTrace) 0 := by
  have h1 : cnt (execTrace s0 dupSettleTrace) 0 = 2 := by rfl
  have h2 : issuedOf (execTrace s0 dupSettleTrace) 0 = 1 := by rfl
  omega

theorem lookupA_nil (k : List Nat) : lookupA [] k = none := rfl

theorem lookupA_cons (k0 : List Nat) (j : Nat) (w : List (List Nat × Nat)) (k : List Nat) :
    lookupA ((k0, j) :: w) k = if k = k0 then some j else lookupA w k := by
  by_cases h : k = k0
  · subst h
    simp [lookupA, List.find?_cons_of_pos]
  · rw [if_neg h]
    unfold lookupA
    rw [List.find?_cons_of_neg]
    simp
    exact fun h2 => (h h2.symm).elim

theorem mem_of_lookupA {w : List (List Nat × Nat)} {k : List Nat} {i : Nat}
    (h : lookupA w k = some i) : k ∈ w.map Prod.fst := by
  unfold lookupA at h
  cases hf : w.find? (fun p => p.1 == k) with
  | none => rw [hf] at h; simp at h
  | some p =>
      have hp := List.find?_some hf
      have hmem : p ∈ w := List.mem_of_find?_eq_some hf
      have : p.1 = k := by simpa using hp
      subst this
      exact List.mem_map_of_mem Prod.fst hmem

theorem mem_pendKeys {w : List (List Nat × Nat)} {set2 : List (List Nat)} {i : Nat}
    {x : List Nat} :
    x ∈ pendKeys w set2 i ↔ x ∈ w.map Prod.fst ∧ x ∉ set2 ∧ lookupA w x = some i := by
  unfold pendKeys
  rw [List.mem_filter, List.mem_dedup]
  simp [and_assoc]

theorem pendKeys_nodup (w : List (List Nat × Nat)) (set2 : List (List Nat)) (i : Nat) :
    (pendKeys w set2 i).Nodup :=
  (List.nodup_dedup _).filter _

theorem pendKeys_write_self (k0 : List Nat) (j : Nat) (w : List (List Nat × Nat))
    (set2 : List (List Nat)) :
    (pendKeys ((k0, j) :: w) set2 j).length ≤ (pendKeys w set2 j).length + 1 := by
  have hsub : pendKeys ((k0, j) :: w) set2 j ⊆ k0 :: pendKeys w set2 j := by
    intro x hx
    obtain ⟨hmem, hset, hlook⟩ := mem_pendKeys.mp hx
    by_cases hxk : x = k0
    · exact hxk ▸ List.mem_cons_self _ _
    · rw [lookupA_cons, if_neg hxk] at hlook
      refine List.mem_cons_of_mem _ (mem_pendKeys.mpr ⟨?_, hset, hlook⟩)
      rw [List.map_cons] at hmem
      exact (List.mem_cons.mp hmem).resolve_left hxk
  have := ((pendKeys_nodup _ _ _).subperm hsub).length_le
  simpa using this

theorem pendKeys_write_other (k0 : List Nat) (j : Nat) (w : List (List Nat × Nat))
    (set2 : List (List Nat)) (i : Nat) (hij : i ≠ j) :
    (pendKeys ((k0, j) :: w) set2 i).length ≤ (pendKeys w set2 i).length := by
  have hsub : pendKeys ((k0, j) :: w) set2 i ⊆ pendKeys w set2 i := by
    intro x hx
    obtain ⟨hmem, hset, hlook⟩ := mem_pendKeys.mp hx
    by_cases hxk : x = k0
    · subst hxk
      rw [lookupA_cons, if_pos rfl] at hlook
      have hji : j = i := by simpa using hlook
      exact (hij hji.symm).elim
    · rw [lookupA_cons, if_neg hxk] at hlook
      refine mem_pendKeys.mpr ⟨?_, hset, hlook⟩
      rw [List.map_cons] at hmem
      exact (List.mem_cons.mp hmem).resolve_left hxk
  exact ((pendKeys_nodup _ _ _).subperm hsub).length_le

theorem pendKeys_settle_self {w : List (List Nat × Nat)} {set2 : List (List Nat)}
    {k : List Nat} {i : Nat} (hlook : lookupA w k = some i) (hset : k ∉ set2) :
    (pendKeys w (k :: set2) i).length + 1 ≤ (pendKeys w set2 i).length := by
  have hknotin : k ∉ pendKeys w (k :: set2) i := by
    intro hk
    exact (mem_pendKeys.mp hk).2.1 (List.mem_cons_self _ _)
  have hnodup : (k :: pendKeys w (k :: set2) i).Nodup :=
    List.nodup_cons.mpr ⟨hknotin, pendKeys_nodup _ _ _⟩
  have hsub : k :: pendKeys w (k :: set2) i ⊆ pendKeys w set2 i := by
    intro x hx
    rcases List.mem_cons.mp hx with rfl | hx
    · exact mem_pendKeys.mpr ⟨mem_of_lookupA hlook, hset, hlook⟩
    · obtain ⟨hmem, hset2, hlook2⟩ := mem_pendKeys.mp hx
      exact mem_pendKeys.mpr ⟨hmem, fun hc => hset2 (List.mem_cons_of_mem _ hc), hlook2⟩
  have := (hnodup.subperm hsub).length_le
  simpa [Nat.add_comm] using this

theorem pendKeys_settle_other (w : List (List Nat × Nat)) (set2 : List (List Nat))
    (k : List Nat) (i : Nat) :
    (pendKeys w (k :: set2) i).length ≤ (pendKeys w set2 i).length := by
  have hsub : pendKeys w (k :: set2) i ⊆ pendKeys w set2 i := by
    intro x hx
    obtain ⟨hmem, hset2, hlook2⟩ := mem_pendKeys.mp hx
    exact mem_pendKeys.mpr ⟨hmem, fun hc => hset2 (List.mem_cons_of_mem _ hc), hlook2⟩
  exact ((pendKeys_nodup _ _ _).subperm hsub).length_le

/-- Classification of every successful invocation with respect to the
settlement ledger and the four per-account transaction counters: it
either touches none of them, or is a successful settlement (counter +1
at the resolved account), or is a successful submission reply (ledger
write plus issued +1 at the replied account). -/
theorem runEvent_classify (s : ContractState) (ev : Event) (s1 : ContractState)
    (msgs : List SubMsg) (h : runEvent s ev = .ok (s1, msgs)) :
    (s1.tx_hash_ica_idx = s.tx_hash_ica_idx ∧
     s1.ica_tx_issued_count = s.ica_tx_issued_count ∧
     s1.ica_tx_success_count = s.ica_tx_success_count ∧
     s1.ica_tx_error_count = s.ica_tx_error_count ∧
     s1.ica_tx_timeout_count = s.ica_tx_timeout_count) ∨
    (∃ seq ch i, settlementKey ev = some (seq, ch) ∧
      s.tx_hash_ica_idx (txHashOf seq ch) = some i ∧
      s1.tx_hash_ica_idx = s.tx_hash_ica_idx ∧
      s1.ica_tx_issued_count = s.ica_tx_issued_count ∧
      cnt s1 i = cnt s i + 1 ∧ (∀ j, j ≠ i → cnt s1 j = cnt s j)) ∨
    (∃ k i, s1.tx_hash_ica_idx = updMap s.tx_hash_ica_idx k i ∧
      (∀ j, cnt s1 j = cnt s j) ∧
      issuedOf s1 i = issuedOf s i + 1 ∧
      (∀ j, j ≠ i → issuedOf s1 j = issuedOf s j)) := by
  cases ev with
  | execMsg ext env info msg =>
      refine Or.inl ?_
      cases msg with
      | setupIca =>
          simp only [runEvent, execute] at h
          unfold execute_setup_ica at h
          dsimp only at h
          cases hd : info.funds.head? <;> rw [hd] at h <;> simp at h
          case some d =>
            split_ifs at h <;> simp at h
            obtain ⟨hs, -⟩ := h
            subst hs
            exact ⟨rfl, rfl, rfl, rfl, rfl⟩
      | transferFunds =>
          simp only [runEvent, execute] at h
          unfold execute_transfer_funds at h
          dsimp only at h
          cases hc : is_ibc_fee_covered info ext.min_ibc_fee <;> rw [hc] at h <;> simp at h
          case ok covered =>
            cases covered <;> simp at h
            cases hf : info.funds.find? (fun c => c.denom == s.host_ibc_denom) <;>
              simp [hf] at h
            case some c =>
              cases ho : s.owner_ica_idx info.sender <;> simp [ho] at h
              case some i =>
                cases ha : s.ica_addr i <;> simp [ha] at h
                case some addr =>
                  obtain ⟨hs, -⟩ := h
                  subst hs
                  exact ⟨rfl, rfl, rfl, rfl, rfl⟩
      | retrieveFunds =>
          simp only [runEvent, execute] at h
          unfold execute_retrieve_funds at h
          dsimp only at h
          cases hc : is_ibc_fee_covered info ext.min_ibc_fee <;> rw [hc] at h <;> simp at h
          case ok covered =>
            cases covered <;> simp at h
            cases ho : s.owner_ica_idx info.sender <;> simp [ho] at h
            case some i =>
              cases hq : s.ica_icq_id i <;> simp [hq] at h
              case some icq_id =>
                cases hb : query_balance_icq ext.icq icq_id <;> rw [hb] at h <;> simp at h
                case ok res =>
                  cases hnz : (res.bind RemoteBalance.balance).filter (fun c => c.amount != 0) <;>
                    simp [hnz] at h
                  case some nz =>
                    cases ha : s.ica_addr i <;> simp [ha] at h
                    case some addr =>
                      obtain ⟨hs, -⟩ := h
                      subst hs
                      exact ⟨rfl, rfl, rfl, rfl, rfl⟩
      | fundsRetrievedHook rx =>
          simp only [runEvent, execute] at h
          unfold execute_funds_retrieved_hook at h
          dsimp only at h
          cases hrx : s.rx_hash_ica_idx rx <;> simp [hrx] at h
          case some i =>
            cases howner : s.ica_owner i <;> simp [howner] at h
            case some owner =>
              obtain ⟨hs, -⟩ := h
              subst hs
              exact ⟨rfl, rfl, rfl, rfl, rfl⟩
  | sudoMsg msg =>
      cases msg with
      | openAck i addr =>
          refine Or.inl ?_
          simp only [runEvent, sudoEntry, sudo_open_ack, Outcome.ok.injEq, Prod.mk.injEq] at h
          obtain ⟨hs, -⟩ := h
          subst hs
          exact ⟨rfl, rfl, rfl, rfl, rfl⟩
      | response req =>
          obtain ⟨oseq, och⟩ := req
          simp only [runEvent, sudoEntry] at h
          unfold sudo_response at h
          dsimp only at h
          cases oseq <;> simp at h
          case some seq =>
            cases och <;> simp at h
            case some ch =>
              cases hl : s.tx_hash_ica_idx (txHashOf seq ch) <;> simp [hl] at h
              case some i =>
                obtain ⟨hs, -⟩ := h
                subst hs
                refine Or.inr (Or.inl ⟨seq, ch, i, rfl, hl, rfl, rfl, ?_, ?_⟩)
                · simp [cnt, updMap]
                  omega
                · intro j hj
                  simp [cnt, updMap_other _ _ hj]
      | error req details =>
          obtain ⟨oseq, och⟩ := req
          simp only [runEvent, sudoEntry] at h
          unfold sudo_error at h
          dsimp only at h
          cases oseq <;> simp at h
          case some seq =>
            cases och <;> simp at h
            case some ch =>
              cases hl : s.tx_hash_ica_idx (txHashOf seq ch) <;> simp [hl] at h
              case some i =>
                obtain ⟨hs, -⟩ := h
                subst hs
                refine Or.inr (Or.inl ⟨seq, ch, i, rfl, hl, rfl, rfl, ?_, ?_⟩)
                · simp [cnt, updMap]
                  omega
                · intro j hj
                  simp [cnt, updMap_other _ _ hj]
      | timeout req =>
          obtain ⟨oseq, och⟩ := req
          simp only [runEvent, sudoEntry] at h
          unfold sudo_timeout at h
          dsimp only at h
          cases oseq <;> simp at h
          case some seq =>
            cases och <;> simp at h
            case some ch =>
              cases hl : s.tx_hash_ica_idx (txHashOf seq ch) <;> simp [hl] at h
              case some i =>
                obtain ⟨hs, -⟩ := h
                subst hs
                refine Or.inr (Or.inl ⟨seq, ch, i, rfl, hl, rfl, rfl, ?_, ?_⟩)
                · simp [cnt, updMap]
                  omega
                · intro j hj
                  simp [cnt, updMap_other _ _ hj]
      | kvQueryResult qid =>
          refine Or.inl ?_
          simp only [runEvent, sudoEntry] at h
          unfold sudo_kv_query_result at h
          cases hq : s.icq_ica_idx qid <;> simp [hq] at h
          case some i =>
            cases ha : s.ica_addr i <;> simp [ha] at h
            case some addr =>
              obtain ⟨hs, -⟩ := h
              subst hs
              exact ⟨rfl, rfl, rfl, rfl, rfl⟩
      | txQueryResult =>
          simp only [runEvent, sudoEntry] at h
          simp at h
  | replyMsg r =>
      simp only [runEvent] at h
      unfold reply at h
      rcases hsp : split_u64 r.id with ⟨kind, idx⟩
      rw [hsp] at h
      dsimp only at h
      split_ifs at h with h1 h2
      · refine Or.inl ?_
        unfold reply_register_icq at h
        cases hp : parse_icq_registration_reply r <;> rw [hp] at h <;> simp at h
        obtain ⟨hs, -⟩ := h
        subst hs
        exact ⟨rfl, rfl, rfl, rfl, rfl⟩
      · unfold reply_issue_tx at h
        cases hp : parse_issue_tx_reply r <;> rw [hp] at h <;> simp at h
        rename_i seq_ch
        obtain ⟨hs, -⟩ := h
        subst hs
        refine Or.inr (Or.inr ⟨txHashOf seq_ch.1 seq_ch.2, idx, rfl, fun j => rfl, ?_, ?_⟩)
        · simp [issuedOf, updMap]
        · intro j hj
          simp [issuedOf, updMap_other _ _ hj]

theorem step_ok {s : ContractState} {ev : Event} {s1 : ContractState} {msgs : List SubMsg}
    (h : runEvent s ev = .ok (s1, msgs)) : step s ev = s1 := by
  simp [step, h]

theorem step_err {s : ContractState} {ev : Event} {e : Error}
    (h : runEvent s ev = .err e) : step s ev = s := by
  simp [step, h]

theorem step_panic {s : ContractState} {ev : Event} {m : String}
    (h : runEvent s ev = .panic m) : step s ev = s := by
  simp [step, h]

theorem nodup_tail {ev : Event} {rest : List Event}
    (hnodup : (((ev :: rest).filterMap settlementKey).map
      (fun p => txHashOf p.1 p.2)).Nodup) :
    ((rest.filterMap settlementKey).map (fun p => txHashOf p.1 p.2)).Nodup := by
  cases hsk : settlementKey ev <;>
    simp only [List.filterMap_cons, hsk, List.map_cons, List.nodup_cons] at hnodup
  · exact hnodup
  · exact hnodup.2

theorem settled_tail {ev : Event} {rest : List Event} {settled : List (List Nat)}
    (hsettled : ∀ p ∈ (ev :: rest).filterMap settlementKey, txHashOf p.1 p.2 ∉ settled) :
    ∀ p ∈ rest.filterMap settlementKey, txHashOf p.1 p.2 ∉ settled := by
  intro p hp
  apply hsettled
  cases hsk : settlementKey ev <;> simp only [List.filterMap_cons, hsk]
  · exact hp
  · exact List.mem_cons_of_mem _ hp

theorem head_key_not_in_rest {ev : Event} {rest : List Event} {seq : Nat} {ch : String}
    (hnodup : (((ev :: rest).filterMap settlementKey).map
      (fun p => txHashOf p.1 p.2)).Nodup)
    (hsk : settlementKey ev = some (seq, ch)) :
    txHashOf seq ch ∉ (rest.filterMap settlementKey).map (fun p => txHashOf p.1 p.2) := by
  simp only [List.filterMap_cons, hsk, List.map_cons, List.nodup_cons] at hnodup
  exact hnodup.1

/-- The inductive invariant behind the amended C4: along any trace whose
settlement notifications consume pairwise-distinct settlement keys, the
settled counters plus the pending (written, unconsumed) keys stay
within the issued counter. -/
theorem inv_trace (events : List Event) :
    ∀ (s : ContractState) (written : List (List Nat × Nat)) (settled : List (List Nat)),
      (∀ k, s.tx_hash_ica_idx k = lookupA written k) →
      (∀ i, cnt s i + (pendKeys written settled i).length ≤ issuedOf s i) →
      ((events.filterMap settlementKey).map (fun p => txHashOf p.1 p.2)).Nodup →
      (∀ p ∈ events.filterMap settlementKey, txHashOf p.1 p.2 ∉ settled) →
      ∀ i, cnt (execTrace s events) i ≤ issuedOf (execTrace s events) i := by
  induction events with
  | nil =>
      intro s written settled _ hinv _ _ i
      have := hinv i
      simp only [execTrace, List.foldl_nil]
      omega
  | cons ev rest ih =>
      intro s written settled hc hinv hnodup hsettled
      have hstep : execTrace s (ev :: rest) = execTrace (step s ev) rest := rfl
      rw [hstep]
      cases ho : runEvent s ev with
      | err e =>
          rw [step_err ho]
          exact ih s written settled hc hinv (nodup_tail hnodup) (settled_tail hsettled)
      | panic m =>
          rw [step_panic ho]
          exact ih s written settled hc hinv (nodup_tail hnodup) (settled_tail hsettled)
      | ok pair =>
          obtain ⟨s1, msgs⟩ := pair
          rw [step_ok ho]
          rcases runEvent_classify s ev s1 msgs ho with
            ⟨f1, f2, f3, f4, f5⟩ |
            ⟨seq, ch, i0, hsk, hfound, f1, f2, hcnt_i, hcnt_j⟩ |
            ⟨k, i0, f1, hcnt, hiss_i, hiss_j⟩
          · refine ih s1 written settled ?_ ?_ (nodup_tail hnodup) (settled_tail hsettled)
            · intro k2
              rw [f1]
              exact hc k2
            · intro i
              have h1 := hinv i
              have h2 : cnt s1 i = cnt s i := by simp [cnt, f3, f4, f5]
              have h3 : issuedOf s1 i = issuedOf s i := by simp [issuedOf, f2]
              omega
          · have hhead : (seq, ch) ∈ (ev :: rest).filterMap settlementKey := by
              simp only [List.filterMap_cons, hsk]
              exact List.mem_cons_self _ _
            have hkey_not_settled : txHashOf seq ch ∉ settled := hsettled (seq, ch) hhead
            have hlookup : lookupA written (txHashOf seq ch) = some i0 := by
              rw [← hc]
              exact hfound
            refine ih s1 written (txHashOf seq ch :: settled) ?_ ?_ (nodup_tail hnodup) ?_
            · intro k2
              rw [f1]
              exact hc k2
            · intro i
              have h3 : issuedOf s1 i = issuedOf s i := by simp [issuedOf, f2]
              by_cases hi : i = i0
              · subst hi
                have h6 := pendKeys_settle_self hlookup hkey_not_settled
                have h1 := hinv i
                rw [hcnt_i, h3]
                omega
              · have h1 := hinv i
                have h7 := pendKeys_settle_other written settled (txHashOf seq ch) i
                rw [hcnt_j i hi, h3]
                omega
            · intro p hp hmem
              rcases List.mem_cons.mp hmem with heq | hmem2
              · exact head_key_not_in_rest hnodup hsk (heq ▸ List.mem_map_of_mem _ hp)
              · exact settled_tail hsettled p hp hmem2
          · refine ih s1 ((k, i0) :: written) settled ?_ ?_ (nodup_tail hnodup)
              (settled_tail hsettled)
            · intro k2
              rw [f1, lookupA_cons]
              unfold updMap
              by_cases hk : k2 = k <;> simp [hk, hc k2]
            · intro i
              by_cases hi : i = i0
              · subst hi
                have h4 := pendKeys_write_self k i written settled
                have h1 := hinv i
                have h2 := hcnt i
                have h3 := hiss_i
                omega
              · have h1 := hinv i
                have h5 := pendKeys_write_other k i0 written settled i hi
                have h2 := hcnt i
                have h3 := hiss_j i hi
                omega

theorem txHashOf_inj {s1 s2 : Nat} {c1 c2 : String} (h1 : s1 < 2 ^ 64) (h2 : s2 < 2 ^ 64)
    (h : txHashOf s1 c1 = txHashOf s2 c2) : s1 = s2 ∧ c1 = c2 := by
  unfold txHashOf hashBytes at h
  simp only [List.flatten, List.append_nil] at h
  have hlen : (beBytes 8 s1).length = (beBytes 8 s2).length := by
    simp [beBytes_length]
  obtain ⟨hbe, hstr⟩ := List.append_inj h hlen
  constructor
  · exact beBytes_inj (by simpa using h1) (by simpa using h2) hbe
  · exact strBytes_inj hstr

/-- C4 (amended): the claimed invariant
`success + error + timeout ≤ issued` holds for every state reachable
from instantiation by entrypoint invocations in which no two settlement
notifications (sudo `Response` / `Error` / `Timeout`) carry the same
`(sequence, channel)` pair — the idempotency the code leaves to the
external runtime; without that restriction the invariant fails (see the
counterexample), since nothing guards against a key being settled
twice. -/
theorem claim_C4_amended (cfg : InstantiateMsg) (events : List Event)
    (hn : (events.filterMap settlementKey).Nodup)
    (hb : ∀ p ∈ events.filterMap settlementKey, p.1 < 2 ^ 64) :
    ∀ i, cnt (execTrace (instantiate cfg) events) i ≤
      issuedOf (execTrace (instantiate cfg) events) i := by
  apply inv_trace events (instantiate cfg) [] []
  · intro k
    rfl
  · intro i
    simp [pendKeys, cnt, issuedOf, instantiate]
  · refine List.Nodup.map_on ?_ hn
    intro x hx y hy hxy
    obtain ⟨e1, e2⟩ := txHashOf_inj (hb x hx) (hb y hy) hxy
    exact Prod.ext_iff.mpr ⟨e1, e2⟩
  · intro p hp
    simp

theorem claim_C4_witness :
    cnt (execTrace (instantiate cfgMsg) goodTrace) 0 ≤
      issuedOf (execTrace (instantiate cfgMsg) goodTrace) 0 :=
  claim_C4_amended cfgMsg goodTrace (by decide) (by decide) 0
